import Mathlib

/-!
Verification of the Saved-Object Dependency & Health Analysis Engine of the
Kibana MCP server (sources: `src/dependency-analyzer.ts` and the dashboard
health analyzer module).

The engine is shallowly embedded: the external Kibana HTTP client is modelled
as records of total Lean functions returning `Except FetchError _` (a thrown
fetch error carries the optional HTTP status of `error.response?.status`), and
the JavaScript values are modelled as plain structures.  JavaScript falsy
checks on optional strings (`a?.title || b`) are modelled with `Option` and
`Option.getD`; an absent or empty (falsy) `panelsJSON` payload is modelled as
`none`, while a present payload is modelled as the already-parsed list of
panel descriptors.
-/

/-! ## Shared data model: saved-object references -/

/-- A declared reference edge `{id, type, name}` of a saved object. -/
structure SavedObjectRef where
  id : String
  type : String
  name : String
deriving Repr, DecidableEq, BEq

/-! ## Dashboard Health Analyzer: data model (health-analyzer module) -/

/-- Issue severity, as in the `HealthIssue` interface. -/
inductive Severity where
  | info
  | warning
  | error
  | critical
deriving Repr, DecidableEq, BEq

/-- Issue category, as in the `HealthIssue` interface. -/
inductive IssueCategory where
  | broken_reference
  | performance
  | configuration
  | data_quality
deriving Repr, DecidableEq, BEq

/-- The shapes of the ad-hoc `details` payloads attached to issues. -/
inductive IssueDetails where
  | panelRef (panelId : Option String)
  | refObj (referenceId : String) (referenceType : String)
  | size (width : Nat) (height : Nat)
deriving Repr, DecidableEq, BEq

/-- One detected issue (`HealthIssue`). -/
structure HealthIssue where
  severity : Severity
  category : IssueCategory
  message : String
  details : Option IssueDetails
  suggestion : Option String
deriving Repr, DecidableEq, BEq

/-- Tri-state health status used for panels and for the whole dashboard. -/
inductive HStatus where
  | healthy
  | warning
  | unhealthy
deriving Repr, DecidableEq, BEq

/-- Per-panel health (`PanelHealth`); `panel_id` is optional because the
source stores the possibly-undefined `panel.id` verbatim. -/
structure PanelHealth where
  panel_id : Option String
  panel_type : String
  title : Option String
  issues : List HealthIssue
  status : HStatus
deriving Repr, DecidableEq, BEq

/-- Summary counts of `DashboardHealth`. -/
structure HealthSummary where
  healthy_panels : Nat
  warning_panels : Nat
  unhealthy_panels : Nat
  total_issues : Nat
deriving Repr, DecidableEq, BEq

/-- Health report for one dashboard (`DashboardHealth`).  The score is an
integer clamped to `[0, 100]` by the scoring algorithm. -/
structure DashboardHealth where
  id : String
  title : String
  overall_status : HStatus
  overall_score : Int
  panel_count : Nat
  panels : List PanelHealth
  global_issues : List HealthIssue
  summary : HealthSummary
deriving Repr, DecidableEq, BEq

/-- Space-wide summary of `BatchHealthReport`. -/
structure BatchSummary where
  total_dashboards : Nat
  healthy : Nat
  warning : Nat
  unhealthy : Nat
  critical_issues : Nat
deriving Repr, DecidableEq, BEq

/-- Aggregate report of `batchAnalyzeDashboards`. -/
structure BatchHealthReport where
  dashboards : List DashboardHealth
  summary : BatchSummary
deriving Repr, DecidableEq, BEq

/-! ## Dashboard Health Analyzer: input model -/

/-- Grid placement of a panel; absent `gridData`, `w` or `h` fields are
modelled as `0`, exactly matching the `(gridData.w || 0)` reads. -/
structure GridData where
  w : Nat
  h : Nat
deriving Repr, DecidableEq, BEq

/-- One parsed panel descriptor from the dashboard `panelsJSON` payload. -/
structure Panel where
  id : Option String
  panelRefName : Option String
  title : Option String
  type : Option String
  gridData : GridData
deriving Repr, DecidableEq, BEq

/-- Attributes of a fetched dashboard saved object.  `panelsJSON = none`
models a dashboard whose layout payload is absent (or falsy). -/
structure DashAttributes where
  title : Option String
  panelsJSON : Option (List Panel)
deriving Repr, DecidableEq, BEq

/-- A fetched dashboard object: attributes plus its declared references
(`dashboard.references || []` is modelled as the plain list). -/
structure DashboardObj where
  attributes : DashAttributes
  references : List SavedObjectRef
deriving Repr, DecidableEq, BEq

/-- A fetch failure; `status` models `error.response?.status` (`none` when the
failure carried no HTTP response, e.g. a network error). -/
structure FetchError where
  status : Option Nat
deriving Repr, DecidableEq, BEq

/-- A dashboard row returned by the batch listing search (only the id is
consumed by the scanner). -/
structure FoundDash where
  id : String
deriving Repr, DecidableEq, BEq

/-- The external Kibana client capabilities consumed by the health analyzer:
fetch one dashboard, fetch an arbitrary object by type and id, and list
dashboards.  Each takes the optional space. -/
structure HealthClient where
  getDashboard : Option String → String → Except FetchError DashboardObj
  getObject : Option String → String → String → Except FetchError Unit
  findDashboards : Option String → Nat → Except FetchError (List FoundDash)

/-! ## Dashboard Health Analyzer: algorithm -/

/-- Check 1 issue: the panel has no matching entry in the references array. -/
def missingRefIssue (panel : Panel) : HealthIssue :=
  { severity := .error
    category := .broken_reference
    message := "Panel missing reference definition"
    details := some (.panelRef panel.id)
    suggestion := some "This Panel may have been deleted, recommend removing it from Dashboard" }

/-- Check 2 issue: the referenced object does not exist (404). -/
def brokenRefIssue (ref : SavedObjectRef) : HealthIssue :=
  { severity := .critical
    category := .broken_reference
    message := "Referenced " ++ ref.type ++ " object does not exist"
    details := some (.refObj ref.id ref.type)
    suggestion := some "Restore deleted object or remove this Panel from Dashboard" }

/-- Check 3 issue: the panel is larger than 48 grid units. -/
def oversizeIssue (g : GridData) : HealthIssue :=
  { severity := .warning
    category := .performance
    message := "Panel size too large may affect performance"
    details := some (.size g.w g.h)
    suggestion := some "Consider splitting into multiple smaller Panels" }

/-- Check 4 issue: the panel has no declared type. -/
def missingTypeIssue : HealthIssue :=
  { severity := .error
    category := .configuration
    message := "Panel missing type definition"
    details := none
    suggestion := some "Reconfigure Panel" }

/-- Global issue for dashboards with more than 20 panels. -/
def tooManyPanelsIssue (n : Nat) : HealthIssue :=
  { severity := .warning
    category := .performance
    message := "Dashboard contains " ++ toString n ++ " Panels, may cause slow loading"
    details := none
    suggestion := some "Consider splitting into multiple themed Dashboards" }

/-- Global issue for a missing index pattern (opt-in `checkESIndices` pass). -/
def missingIndexPatternIssue (id : String) : HealthIssue :=
  { severity := .critical
    category := .broken_reference
    message := "Referenced index pattern does not exist: " ++ id
    details := none
    suggestion := some "Recreate index pattern or update Dashboard reference" }

/-- Global issue of the short-circuit branch for a missing panel layout. -/
def noPanelsIssue : HealthIssue :=
  { severity := .error
    category := .configuration
    message := "Dashboard has no panels configured"
    details := none
    suggestion := some "Add at least one visualization panel" }

/-- The panel reference key: `panel.panelRefName || panel.id`. -/
def panelRefId (panel : Panel) : Option String :=
  panel.panelRefName <|> panel.id

/-- Resolve the panel against the dashboard reference array by name
(`references.find(ref => ref.name === panelRefId)`); when the panel has no
reference key at all, the strict comparison with `undefined` never matches. -/
def findReference (references : List SavedObjectRef) (panel : Panel) :
    Option SavedObjectRef :=
  match panelRefId panel with
  | none => none
  | some rid => references.find? (fun ref => ref.name == rid)

/-- Checks 1 and 2 of the per-panel loop: reference presence, then reference
resolvability.  Only a 404 status on the fetch yields the critical issue;
every other fetch failure is silently ignored by the source. -/
def refIssues (client : HealthClient) (space : Option String)
    (references : List SavedObjectRef) (panel : Panel) : List HealthIssue :=
  match findReference references panel with
  | none => [missingRefIssue panel]
  | some ref =>
    match client.getObject space ref.type ref.id with
    | .ok _ => []
    | .error e => if e.status == some 404 then [brokenRefIssue ref] else []

/-- All four per-panel checks, in source order. -/
def panelIssues (client : HealthClient) (space : Option String)
    (references : List SavedObjectRef) (panel : Panel) : List HealthIssue :=
  refIssues client space references panel
    ++ (if panel.gridData.w * panel.gridData.h > 48 then [oversizeIssue panel.gridData] else [])
    ++ (match panel.type with
        | none => [missingTypeIssue]
        | some _ => [])

/-- Derived panel status: unhealthy on any error/critical issue, warning on
any issue at all, healthy otherwise. -/
def panelStatusOf (issues : List HealthIssue) : HStatus :=
  if issues.any (fun i => i.severity == .error || i.severity == .critical) then .unhealthy
  else if issues.length > 0 then .warning
  else .healthy

/-- One iteration of the per-panel loop, producing the `PanelHealth` row. -/
def panelHealthOf (client : HealthClient) (space : Option String)
    (references : List SavedObjectRef) (panel : Panel) : PanelHealth :=
  let issues := panelIssues client space references panel
  { panel_id := panel.id
    panel_type := panel.type.getD "unknown"
    title := panel.title
    issues := issues
    status := panelStatusOf issues }

/-- Opt-in global index-pattern check: every `index-pattern` reference is
resolved and a 404 yields a critical global issue. -/
def indexPatternIssues (client : HealthClient) (space : Option String)
    (references : List SavedObjectRef) : List HealthIssue :=
  (references.filter (fun r => r.type == "index-pattern")).filterMap fun r =>
    match client.getObject space "index-pattern" r.id with
    | .ok _ => none
    | .error e => if e.status == some 404 then some (missingIndexPatternIssue r.id) else none

/-- The health scoring algorithm:
`Math.max(0, Math.min(100, 100 - unhealthy*20 - warning*5 - globals*10))`. -/
def healthScore (unhealthyCount warningCount globalIssueCount : Nat) : Int :=
  max 0 (min 100
    (100 - (unhealthyCount : Int) * 20 - (warningCount : Int) * 5 - (globalIssueCount : Int) * 10))

/-- The short-circuit result for a dashboard with no panel layout. -/
def noPanelsHealth (dashboardId : String) (title : String) : DashboardHealth :=
  { id := dashboardId
    title := title
    overall_status := .unhealthy
    overall_score := 0
    panel_count := 0
    panels := []
    global_issues := [noPanelsIssue]
    summary := { healthy_panels := 0, warning_panels := 0, unhealthy_panels := 0, total_issues := 1 } }

/-- `analyzeDashboardHealth`: fetch the dashboard, short-circuit when there is
no panel layout, otherwise run the per-panel checks, the global checks and the
scoring algorithm.  Failure to fetch the root dashboard is re-thrown with a
wrapping message. -/
def analyzeDashboardHealth (client : HealthClient) (dashboardId : String)
    (space : Option String) (checkESIndices : Bool) : Except String DashboardHealth :=
  match client.getDashboard space dashboardId with
  | .error _ => .error "Health analysis failed"
  | .ok dashboard =>
    let title := dashboard.attributes.title.getD dashboardId
    match dashboard.attributes.panelsJSON with
    | none => .ok (noPanelsHealth dashboardId title)
    | some panels =>
      let references := dashboard.references
      let panelHealths := panels.map (panelHealthOf client space references)
      let globalIssues :=
        (if panels.length > 20 then [tooManyPanelsIssue panels.length] else [])
          ++ (if checkESIndices then indexPatternIssues client space references else [])
      let healthyCount := (panelHealths.filter (fun p => p.status == .healthy)).length
      let warningCount := (panelHealths.filter (fun p => p.status == .warning)).length
      let unhealthyCount := (panelHealths.filter (fun p => p.status == .unhealthy)).length
      let totalIssues := panelHealths.foldl (fun s p => s + p.issues.length) 0 + globalIssues.length
      let score := healthScore unhealthyCount warningCount globalIssues.length
      let overallStatus : HStatus :=
        if unhealthyCount > 0 || globalIssues.any (fun i => i.severity == .critical) then .unhealthy
        else if warningCount > 0 || globalIssues.length > 0 then .warning
        else .healthy
      .ok
        { id := dashboardId
          title := title
          overall_status := overallStatus
          overall_score := score
          panel_count := panels.length
          panels := panelHealths
          global_issues := globalIssues
          summary :=
            { healthy_panels := healthyCount
              warning_panels := warningCount
              unhealthy_panels := unhealthyCount
              total_issues := totalIssues } }

/-- Critical-issue count of one dashboard report: critical global issues plus
critical per-panel issues. -/
def criticalIssueCount (h : DashboardHealth) : Nat :=
  (h.global_issues.filter (fun i => i.severity == .critical)).length
    + h.panels.foldl (fun s p => s + (p.issues.filter (fun i => i.severity == .critical)).length) 0

/-- `batchAnalyzeDashboards`: list up to `maxDashboards` dashboards, analyze
each with `checkESIndices = false`, silently dropping any dashboard whose
analysis throws, and aggregate the summary over the retained reports. -/
def batchAnalyzeDashboards (client : HealthClient) (space : Option String)
    (maxDashboards : Nat) : Except String BatchHealthReport :=
  match client.findDashboards space maxDashboards with
  | .error _ => .error "Batch health analysis failed"
  | .ok dashboards =>
    let healthReports := dashboards.filterMap fun d =>
      (analyzeDashboardHealth client d.id space false).toOption
    .ok
      { dashboards := healthReports
        summary :=
          { total_dashboards := healthReports.length
            healthy := (healthReports.filter (fun h => h.overall_status == .healthy)).length
            warning := (healthReports.filter (fun h => h.overall_status == .warning)).length
            unhealthy := (healthReports.filter (fun h => h.overall_status == .unhealthy)).length
            critical_issues := healthReports.foldl (fun s h => s + criticalIssueCount h) 0 } }

/-! ## Impact Analyzer: data model and algorithm (`analyzeImpact`) -/

/-- The four-tier risk classification. -/
inductive RiskLevel where
  | Low
  | Medium
  | High
  | Critical
deriving Repr, DecidableEq, BEq

/-- Target descriptor of an impact analysis. -/
structure ImpactTarget where
  id : String
  type : String
  title : Option String
deriving Repr, DecidableEq, BEq

/-- Result of `analyzeImpact`. -/
structure ImpactAnalysis where
  target : ImpactTarget
  direct_dependencies : Nat
  indirect_dependencies : Nat
  affected_dashboards : List SavedObjectRef
  risk_level : RiskLevel
  recommendation : String
deriving Repr, DecidableEq, BEq

/-- A saved object returned by the reverse `_find` lookup; `title` models
`obj.attributes?.title`. -/
structure FoundObj where
  id : String
  type : String
  title : Option String
deriving Repr, DecidableEq, BEq

/-- The fetched target object; `title` models the collapsed
`attributes?.title || attributes?.name` read. -/
structure TargetObj where
  title : Option String
deriving Repr, DecidableEq, BEq

/-- The external client capabilities consumed by the impact analyzer: the
reverse-reference `_find` (space, candidate types, referenced type and id,
page size) and the single-object read used for title enrichment. -/
structure ImpactClient where
  find : Option String → List String → String → String → Nat → Except FetchError (List FoundObj)
  get : Option String → String → String → Except FetchError TargetObj

/-- The fixed recommendation string attached to each risk level. -/
def riskRecommendation : RiskLevel → String
  | .Critical => "Warning: Object is heavily referenced by Dashboards. Deletion/modification may cause severe impact. Recommend testing in test space first."
  | .High => "Notice: Object is used by multiple Dashboards. Recommend notifying relevant users."
  | .Medium => "Note: Object has some dependencies. Confirm if referencing parties need synchronous updates."
  | .Low => "Safe: Object is not referenced by other objects, can be safely deleted/modified."

/-- The risk classification if-chain over the affected dashboard count. -/
def riskOfCount (n : Nat) : RiskLevel :=
  if n > 10 then .Critical
  else if n > 5 then .High
  else if n > 0 then .Medium
  else .Low

/-- The candidate types of the first reverse lookup. -/
def impactFindTypes : List String :=
  ["dashboard", "visualization", "lens", "search", "map"]

/-- The second-level reverse lookup loop over the direct dependents: every
non-dashboard dependent contributes the raw hit count of one
dashboard-restricted reverse find; a failing find aborts the loop. -/
def indirectLoop (client : ImpactClient) (space : Option String) :
    List FoundObj → Nat → Except FetchError Nat
  | [], acc => .ok acc
  | dep :: rest, acc =>
    if dep.type != "dashboard" then
      match client.find space ["dashboard"] dep.type dep.id 100 with
      | .error e => .error e
      | .ok hits => indirectLoop client space rest (acc + hits.length)
    else indirectLoop client space rest acc

/-- Core of `analyzeImpact`; any failing sub-call aborts the whole analysis
(fail-fast, unlike the graph builder). -/
def analyzeImpactCore (client : ImpactClient) (targetId targetType : String)
    (space : Option String) : Except FetchError ImpactAnalysis :=
  match client.find space impactFindTypes targetType targetId 100 with
  | .error e => .error e
  | .ok directDeps =>
    let affectedDashboards : List SavedObjectRef :=
      (directDeps.filter (fun o => o.type == "dashboard")).map
        (fun o => { id := o.id, type := o.type, name := o.title.getD o.id })
    match indirectLoop client space directDeps 0 with
    | .error e => .error e
    | .ok indirectCount =>
      let riskLevel := riskOfCount affectedDashboards.length
      match client.get space targetType targetId with
      | .error e => .error e
      | .ok targetObj =>
        .ok
          { target := { id := targetId, type := targetType, title := targetObj.title }
            direct_dependencies := directDeps.length
            indirect_dependencies := indirectCount
            affected_dashboards := affectedDashboards
            risk_level := riskLevel
            recommendation := riskRecommendation riskLevel }

/-- `analyzeImpact`: the caught-and-rethrown wrapper around the core. -/
def analyzeImpact (client : ImpactClient) (targetId targetType : String)
    (space : Option String) : Except String ImpactAnalysis :=
  (analyzeImpactCore client targetId targetType space).mapError
    (fun _ => "Impact analysis failed")

/-! ## Dependency Graph Builder: data model (`dependency-analyzer.ts`) -/

/-- A saved object as returned by the Object Fetcher: its (collapsed)
`attributes?.title || attributes?.name` and its declared reference list. -/
structure SavedObj where
  title : Option String
  references : List SavedObjectRef
deriving Repr, DecidableEq, BEq

/-- The external saved-object store behind `kibanaClient.get`: a finite
association list keyed by the `(type, id)` pair of the object. -/
abbrev ObjectStore := List ((String × String) × SavedObj)

/-- The Object Fetcher: look an object up by exact `(type, id)`; `none` models
a failing fetch. -/
def fetchObject (store : ObjectStore) (type id : String) : Option SavedObj :=
  (store.find? (fun e => decide (e.1 = (type, id)))).map (fun e => e.2)

/-- The composite string key used by the source for its visited set and node
map. -/
def keyOf (type id : String) : String :=
  type ++ ":" ++ id

/-- The key of a `(type, id)` pair. -/
def pairKey (p : String × String) : String :=
  keyOf p.1 p.2

/-- One graph node (`DependencyNode`). -/
structure DependencyNode where
  id : String
  type : String
  title : Option String
  referencedBy : List SavedObjectRef
  references : List SavedObjectRef
  depth : Nat
deriving Repr, DecidableEq, BEq

/-- The node map `Map<"type:id", DependencyNode>`, modelled as an association
list in insertion order. -/
abbrev NodeMap := List (String × DependencyNode)

/-- Map lookup (`allNodes.get`). -/
def mapGet (m : NodeMap) (k : String) : Option DependencyNode :=
  (m.find? (fun e => decide (e.1 = k))).map (fun e => e.2)

/-- Map insertion (`allNodes.set`): replace in place, or append a fresh key,
preserving JavaScript `Map` insertion order. -/
def mapSet (m : NodeMap) (k : String) (v : DependencyNode) : NodeMap :=
  match m with
  | [] => [(k, v)]
  | e :: rest => if e.1 = k then (k, v) :: rest else e :: mapSet rest k v

/-- In-place mutation of the node stored under a key (a no-op when the key is
absent), modelling mutation through the alias obtained from `allNodes.get`. -/
def mapUpdate (m : NodeMap) (k : String) (f : DependencyNode → DependencyNode) : NodeMap :=
  m.map (fun e => if e.1 = k then (e.1, f e.2) else e)

/-- The mutable state threaded through `traverse`: the node map, the visited
key set, and an instrumentation log recording every `kibanaClient.get` call of
the traversal as `((type, id), succeeded?)`. -/
structure TravState where
  allNodes : NodeMap
  visited : List String
  fetchLog : List ((String × String) × Bool)
deriving Repr, DecidableEq, BEq

/-- The two recursion shapes of `traverse`: visiting one object, and the
parent loop over a suffix of the declared references of a fetched object. -/
inductive TravTask where
  | visit (id type : String) (depth : Nat)
  | expand (pid ptype : String) (ptitle : Option String) (depth : Nat)
      (refs : List SavedObjectRef)
deriving Repr, DecidableEq

/-- Record the reverse reference push
`existingChild.referencedBy.push({id, type, name})` (a no-op when the child
key is not in the map, matching the `if (existingChild)` guard). -/
def pushReferencedBy (st : TravState) (childKey : String) (entry : SavedObjectRef) : TravState :=
  { st with
    allNodes := mapUpdate st.allNodes childKey
      (fun n => { n with referencedBy := n.referencedBy ++ [entry] }) }

/-- Fuel-indexed interpreter of the recursive `traverse` of
`buildDependencyTree`.  A `visit` first applies the visited/depth guard, then
marks the key visited and fetches; a failed fetch yields an unrecorded stub (no
`allNodes.set` happens in the catch branch of the source), a successful fetch
records the node and expands its references; an `expand` visits one referenced
object at `depth + 1`, then pushes the reverse reference into the child node if
it is present in the map.  `none` means the fuel ran out; `traverseFuel` below
always suffices. -/
def runTraverse (store : ObjectStore) (maxDepth : Nat) :
    Nat → TravState → TravTask → Option TravState
  | 0, _, _ => none
  | Nat.succ fuel, st, .visit id type depth =>
    let key := keyOf type id
    if key ∈ st.visited ∨ depth > maxDepth then
      some st
    else
      let st1 : TravState := { st with visited := key :: st.visited }
      match fetchObject store type id with
      | none => some { st1 with fetchLog := ((type, id), false) :: st1.fetchLog }
      | some obj =>
        let node : DependencyNode :=
          { id := id, type := type, title := obj.title, referencedBy := []
            references := obj.references, depth := depth }
        let st2 : TravState :=
          { st1 with
            fetchLog := ((type, id), true) :: st1.fetchLog
            allNodes := mapSet st1.allNodes key node }
        runTraverse store maxDepth fuel st2 (.expand id type obj.title depth obj.references)
  | Nat.succ _, st, .expand _ _ _ _ [] => some st
  | Nat.succ fuel, st, .expand pid ptype ptitle depth (ref :: rest) =>
    match runTraverse store maxDepth fuel st (.visit ref.id ref.type (depth + 1)) with
    | none => none
    | some st1 =>
      let st2 := pushReferencedBy st1 (keyOf ref.type ref.id)
        { id := pid, type := ptype, name := ptitle.getD pid }
      runTraverse store maxDepth fuel st2 (.expand pid ptype ptitle depth rest)

/-- The largest declared reference list length over the store. -/
def maxRefsLen (store : ObjectStore) : Nat :=
  store.foldr (fun e m => max e.2.references.length m) 0

/-- Fuel that always suffices for a full traversal of the store. -/
def traverseFuel (store : ObjectStore) : Nat :=
  (maxRefsLen store + 1) * store.length + 2

/-- The state at the start of one `buildDependencyTree` call. -/
def initialState : TravState :=
  { allNodes := [], visited := [], fetchLog := [] }

/-- The traversal state after `traverse(rootId, rootType, 0)` returns. -/
def finalStateOf (store : ObjectStore) (rootId rootType : String) (maxDepth : Nat) :
    Option TravState :=
  runTraverse store maxDepth (traverseFuel store) initialState (.visit rootId rootType 0)

/-- One row of `summary.top_referenced`. -/
structure TopRef where
  id : String
  type : String
  title : Option String
  count : Nat
deriving Repr, DecidableEq, BEq

/-- One row of `summary.orphans`. -/
structure OrphanInfo where
  id : String
  type : String
  title : Option String
deriving Repr, DecidableEq, BEq

/-- The summary block of a `DependencyTree`. -/
structure TreeSummary where
  total_objects : Nat
  max_depth : Nat
  top_referenced : List TopRef
  orphans : List OrphanInfo
deriving Repr, DecidableEq, BEq

/-- A completed dependency tree. -/
structure DependencyTree where
  root : DependencyNode
  allNodes : NodeMap
  summary : TreeSummary
deriving Repr, DecidableEq, BEq

/-- Insert one entry into a list sorted by count descending (the summary sort
`(a, b) => b[1] - a[1]`; tie order is immaterial to the verified claims). -/
def insertByCountDesc (x : String × DependencyNode × Nat) :
    List (String × DependencyNode × Nat) → List (String × DependencyNode × Nat)
  | [] => [x]
  | y :: ys => if x.2.2 ≤ y.2.2 then y :: insertByCountDesc x ys else x :: y :: ys

/-- Sort entries by count descending. -/
def sortByCountDesc : List (String × DependencyNode × Nat) → List (String × DependencyNode × Nat)
  | [] => []
  | x :: xs => insertByCountDesc x (sortByCountDesc xs)

/-- The statistics pass over the finished node map: maximum observed depth,
orphans (no incoming reference and not the root key, first five kept), and the
ten most referenced nodes. -/
def buildSummary (rootKey : String) (m : NodeMap) : TreeSummary :=
  let maxDepthFound := m.foldl (fun a e => max a e.2.depth) 0
  let orphans := (m.filter
      (fun e => decide (e.2.referencedBy.length = 0 ∧ e.1 ≠ rootKey))).map
    (fun e => OrphanInfo.mk e.2.id e.2.type e.2.title)
  let counted := m.map (fun e => (e.1, e.2, e.2.referencedBy.length))
  let topReferenced := ((sortByCountDesc counted).take 10).map
    (fun ec => TopRef.mk ec.2.1.id ec.2.1.type ec.2.1.title ec.2.2)
  { total_objects := m.length
    max_depth := maxDepthFound
    top_referenced := topReferenced
    orphans := orphans.take 5 }

/-- `buildDependencyTree`: run the traversal from the root and assemble the
tree.  The returned root is the node stored under the root key (the source
aliases the map entry), or the failed-fetch stub when the root fetch failed.
The fuel-exhausted branch is unreachable (`runTraverse_total` below). -/
def buildDependencyTree (store : ObjectStore) (rootId rootType : String)
    (maxDepth : Nat) : DependencyTree :=
  match finalStateOf store rootId rootType maxDepth with
  | none =>
    { root :=
        { id := rootId, type := rootType, title := none, referencedBy := []
          references := [], depth := 0 }
      allNodes := []
      summary := { total_objects := 0, max_depth := 0, top_referenced := [], orphans := [] } }
  | some st =>
    let rootKey := keyOf rootType rootId
    let root := (mapGet st.allNodes rootKey).getD
      { id := rootId, type := rootType, title := none, referencedBy := []
        references := [], depth := 0 }
    { root := root
      allNodes := st.allNodes
      summary := buildSummary rootKey st.allNodes }

/-! ## Dependency tree rendering (`formatNodeTree`) -/

/-- The composite key of a node. -/
def nodeKey (n : DependencyNode) : String :=
  keyOf n.type n.id

/-- The header line printed for a node. -/
def nodeHeader (pre : String) (n : DependencyNode) : String :=
  pre ++ "📦 **" ++ (n.title.getD n.id) ++ "** (" ++ n.type ++ ")\n"

/-- The circular-reference marker line. -/
def circularMark (pre : String) : String :=
  pre ++ "  ↻ (Circular Reference)\n"

/-- The leaf line printed for a reference whose target is not in the map. -/
def leafLine (pre : String) (branch : String) (ref : SavedObjectRef) : String :=
  pre ++ branch ++ "📄 " ++ (if ref.name.isEmpty then ref.id else ref.name)
    ++ " (" ++ ref.type ++ ")\n"

/-- The two recursion shapes of `formatNodeTree`: rendering one node, and the
loop over the references of a node. -/
inductive FmtTask where
  | node (n : DependencyNode) (pre : String) (visited : List String)
  | children (pre : String) (visited : List String) (refs : List SavedObjectRef)

/-- Fuel-indexed interpreter of the recursive `formatNodeTree`: a node whose
key is already on the current path is printed as a circular reference and not
re-expanded; otherwise its references are rendered with box-drawing prefixes,
each child receiving a copy of the path-visited set. -/
def formatRun (m : NodeMap) : Nat → FmtTask → Option String
  | 0, _ => none
  | Nat.succ fuel, .node n pre visited =>
    if nodeKey n ∈ visited then
      some (nodeHeader pre n ++ circularMark pre)
    else
      (formatRun m fuel (.children pre (nodeKey n :: visited) n.references)).map
        (fun s => nodeHeader pre n ++ s)
  | Nat.succ _, .children _ _ [] => some ""
  | Nat.succ fuel, .children pre visited (ref :: rest) =>
    let isLast := rest.isEmpty
    let branch := if isLast then "  └─ " else "  ├─ "
    let line :=
      match mapGet m (keyOf ref.type ref.id) with
      | some child => formatRun m fuel (.node child (pre ++ branch) visited)
      | none => some (leafLine pre branch ref)
    match line with
    | none => none
    | some s1 => (formatRun m fuel (.children pre visited rest)).map (fun s2 => s1 ++ s2)

/-- `formatNodeTree` on one node. -/
def formatNodeTree (m : NodeMap) (fuel : Nat) (n : DependencyNode) (pre : String)
    (visited : List String) : Option String :=
  formatRun m fuel (.node n pre visited)

/-! ## Reference-graph notions used to state the graph-builder claims -/

/-- Whether a pair denotes an existing object of the store. -/
def inStoreP (store : ObjectStore) (p : String × String) : Bool :=
  (fetchObject store p.1 p.2).isSome

/-- All `(type, id)` pairs reachable from `p` through existing objects in at
most `n` reference steps (the graph nodes are the existing objects). -/
def reachP (store : ObjectStore) : Nat → String × String → List (String × String)
  | 0, p => if (fetchObject store p.1 p.2).isSome then [p] else []
  | Nat.succ n, p =>
    match fetchObject store p.1 p.2 with
    | none => []
    | some obj => p :: obj.references.flatMap (fun r => reachP store n (r.type, r.id))

/-- Decidable rendering of the hypothesis that the reference graph is acyclic
with depth at most `n` below `p`: every path of existing objects starting at
`p` has at most `n` edges. -/
def depthLE (store : ObjectStore) : Nat → String × String → Bool
  | n, p =>
    match fetchObject store p.1 p.2 with
    | none => true
    | some obj =>
      let succs := obj.references.filter (fun r => inStoreP store (r.type, r.id))
      match n with
      | 0 => succs.isEmpty
      | Nat.succ n => succs.all (fun r => depthLE store n (r.type, r.id))

/-- The pairs a traversal from the given root can ever attempt to fetch: the
root pair and the targets of the references declared by stored objects. -/
def occPairs (store : ObjectStore) (rootId rootType : String) : List (String × String) :=
  (rootType, rootId) :: store.flatMap (fun e => e.2.references.map (fun r => (r.type, r.id)))

/-- Collision-freedom of the composite string keys over a set of pairs. -/
def KeysInjOn (l : List (String × String)) : Prop :=
  ∀ p ∈ l, ∀ q ∈ l, pairKey p = pairKey q → p = q

instance (l : List (String × String)) : Decidable (KeysInjOn l) := by
  unfold KeysInjOn
  infer_instance

/-- Whether some fetch (successful or failed) was attempted for the key. -/
def logHasKey (log : List ((String × String) × Bool)) (k : String) : Bool :=
  log.any (fun e => pairKey e.1 == k)

/-- Whether some successful fetch was recorded for the key. -/
def logHasSuccessKey (log : List ((String × String) × Bool)) (k : String) : Bool :=
  log.any (fun e => e.2 && (pairKey e.1 == k))

/-! ## Rank of a risk level (used to state monotonicity of the classification) -/

/-- The strict ordering Low < Medium < High < Critical as a numeric rank. -/
def riskRank : RiskLevel → Nat
  | .Low => 0
  | .Medium => 1
  | .High => 2
  | .Critical => 3

/-! ## Concrete inputs used by the counterexamples and witnesses -/

/-- A dashboard whose layout payload is present but holds zero panels. -/
def dashRowC2 : DashboardObj :=
  { attributes := { title := some "empty-layout", panelsJSON := some [] }, references := [] }

/-- Client serving `dashRowC2`. -/
def clientC2 : HealthClient :=
  { getDashboard := fun _ _ => .ok dashRowC2
    getObject := fun _ _ _ => .ok ()
    findDashboards := fun _ _ => .ok [] }

/-- The health report of the zero-panel dashboard. -/
def resC2 : DashboardHealth :=
  (analyzeDashboardHealth clientC2 "d0" none false).toOption.getD (noPanelsHealth "d0" "d0")

/-- A dashboard with no layout payload at all. -/
def dashW2 : DashboardObj :=
  { attributes := { title := some "no-layout", panelsJSON := none }, references := [] }

/-- Client serving `dashW2`. -/
def clientW2 : HealthClient :=
  { getDashboard := fun _ _ => .ok dashW2
    getObject := fun _ _ _ => .ok ()
    findDashboards := fun _ _ => .ok [] }

/-- A small healthy panel. -/
def pW5 : Panel :=
  { id := some "p1", panelRefName := some "panel_1", title := none, type := some "lens"
    gridData := { w := 4, h := 4 } }

/-- The reference entry matching `pW5`. -/
def refW5 : SavedObjectRef :=
  { id := "v1", type := "lens", name := "panel_1" }

/-- A one-panel dashboard. -/
def dashW5 : DashboardObj :=
  { attributes := { title := some "W5", panelsJSON := some [pW5] }, references := [refW5] }

/-- Client serving `dashW5` with all object fetches succeeding. -/
def clientW5 : HealthClient :=
  { getDashboard := fun _ _ => .ok dashW5
    getObject := fun _ _ _ => .ok ()
    findDashboards := fun _ _ => .ok [] }

/-- The health report of `dashW5`. -/
def resW5 : DashboardHealth :=
  (analyzeDashboardHealth clientW5 "d1" none false).toOption.getD (noPanelsHealth "d1" "d1")

/-- A trivially healthy dashboard used by the batch witness. -/
def dashW7 : DashboardObj :=
  { attributes := { title := some "t", panelsJSON := none }, references := [] }

/-- Client listing ten dashboards of which exactly `d7` fails to fetch. -/
def clientW7 : HealthClient :=
  { getDashboard := fun _ i => if i = "d7" then .error { status := some 500 } else .ok dashW7
    getObject := fun _ _ _ => .ok ()
    findDashboards := fun _ _ =>
      .ok ((List.range 10).map (fun i => { id := "d" ++ toString (i + 1) })) }

/-- The batch report over `clientW7`. -/
def repW7 : BatchHealthReport :=
  (batchAnalyzeDashboards clientW7 none 50).toOption.getD
    { dashboards := []
      summary := { total_dashboards := 0, healthy := 0, warning := 0, unhealthy := 0, critical_issues := 0 } }

/-- A panel of exactly 48 grid units (not oversized) with a declared type. -/
def pW9 : Panel :=
  { id := some "p9", panelRefName := some "panel_9", title := none, type := some "lens"
    gridData := { w := 6, h := 8 } }

/-- The reference entry matching `pW9`. -/
def refW9 : SavedObjectRef :=
  { id := "v9", type := "lens", name := "panel_9" }

/-- Client whose object fetches fail with a 500 status. -/
def clientW9 : HealthClient :=
  { getDashboard := fun _ _ => .error { status := none }
    getObject := fun _ _ _ => .error { status := some 500 }
    findDashboards := fun _ _ => .ok [] }

/-- Client whose object fetches fail with a 404 status. -/
def clientW9b : HealthClient :=
  { getDashboard := fun _ _ => .error { status := none }
    getObject := fun _ _ _ => .error { status := some 404 }
    findDashboards := fun _ _ => .ok [] }

/-- A default impact analysis used only to unpack `Except` values. -/
def defaultImpact : ImpactAnalysis :=
  { target := { id := "", type := "", title := none }
    direct_dependencies := 0
    indirect_dependencies := 0
    affected_dashboards := []
    risk_level := .Low
    recommendation := "" }

/-- Client whose reverse find returns two dashboards. -/
def clientW3 : ImpactClient :=
  { find := fun _ types _ _ _ =>
      if types = impactFindTypes then
        .ok [{ id := "dashA", type := "dashboard", title := some "A" },
             { id := "dashB", type := "dashboard", title := some "B" }]
      else .ok []
    get := fun _ _ _ => .ok { title := some "target" } }

/-- Client whose reverse find returns seven dashboards. -/
def clientW3b : ImpactClient :=
  { find := fun _ types _ _ _ =>
      if types = impactFindTypes then
        .ok ((List.range 7).map (fun i => { id := "D" ++ toString i, type := "dashboard", title := none }))
      else .ok []
    get := fun _ _ _ => .ok { title := some "target" } }

/-- Impact analysis of the two-dashboard client. -/
def resW3 : ImpactAnalysis :=
  (analyzeImpact clientW3 "t1" "index-pattern" none).toOption.getD defaultImpact

/-- Impact analysis of the seven-dashboard client. -/
def resW3b : ImpactAnalysis :=
  (analyzeImpact clientW3b "t1" "index-pattern" none).toOption.getD defaultImpact

/-- Client where dashboard `D` directly references the target and also both
non-dashboard direct dependents `v1` and `v2`, so the second-level lookup hits
`D` twice. -/
def clientW10 : ImpactClient :=
  { find := fun _ types ty _ _ =>
      if types = impactFindTypes then
        .ok [{ id := "D", type := "dashboard", title := some "D" },
             { id := "v1", type := "visualization", title := none },
             { id := "v2", type := "visualization", title := none }]
      else if ty = "visualization" then
        .ok [{ id := "D", type := "dashboard", title := some "D" }]
      else .ok []
    get := fun _ _ _ => .ok { title := none } }

/-- Impact analysis of the double-counting client. -/
def resW10 : ImpactAnalysis :=
  (analyzeImpact clientW10 "x" "index-pattern" none).toOption.getD defaultImpact

/-- Traversal state over the empty store: the root fetch is attempted and
fails, leaving the node map empty. -/
def stC1 : TravState :=
  (finalStateOf [] "r" "dashboard" 5).getD initialState

/-- A one-object store. -/
def storeW1 : ObjectStore :=
  [(("dashboard", "w"), { title := some "W", references := [] })]

/-- Traversal state over `storeW1`. -/
def stW1 : TravState :=
  (finalStateOf storeW1 "w" "dashboard" 5).getD initialState

/-- Two distinct `(type, id)` pairs sharing the composite key `a:b:c`: the
root `("a", "b:c")` references the existing object `("a:b", "c")`. -/
def storeX : ObjectStore :=
  [(("a", "b:c"), { title := none, references := [{ id := "c", type := "a:b", name := "collide" }] }),
   (("a:b", "c"), { title := none, references := [] })]

/-- An acyclic three-object chain with collision-free keys. -/
def storeW4 : ObjectStore :=
  [(("dashboard", "root"),
     { title := some "Root", references := [{ id := "viz", type := "visualization", name := "panel_1" }] }),
   (("visualization", "viz"),
     { title := some "Viz", references := [{ id := "idx", type := "index-pattern", name := "layer_0" }] }),
   (("index-pattern", "idx"), { title := some "Idx", references := [] })]

/-- A two-object reference cycle `a -> b -> a`. -/
def storeAB : ObjectStore :=
  [(("visualization", "a"),
     { title := some "A", references := [{ id := "b", type := "visualization", name := "refB" }] }),
   (("visualization", "b"),
     { title := some "B", references := [{ id := "a", type := "visualization", name := "refA" }] })]

/-- A node used to instantiate the circular-marker rendering. -/
def nodeW6 : DependencyNode :=
  { id := "a", type := "visualization", title := some "A", referencedBy := []
    references := [{ id := "b", type := "visualization", name := "refB" }], depth := 0 }

/-- A traversal state whose visited set already contains the key of node
`a`. -/
def stV6 : TravState :=
  { allNodes := [], visited := [keyOf "visualization" "a"], fetchLog := [] }

/-! ## Proof-layer predicates for the graph builder -/

/-- Number of store entries whose key is not yet visited (the termination
measure of the traversal). -/
def unvisitedCount (store : ObjectStore) (st : TravState) : Nat :=
  (store.filter (fun e => decide (pairKey e.1 ∉ st.visited))).length

/-- State invariants of the traversal: the node map holds exactly the keys of
successfully fetched pairs, the visited set holds exactly the keys of
attempted fetches, the log outcome matches the store, map entries are keyed by
their node, and map keys are distinct. -/
def StInv (store : ObjectStore) (st : TravState) : Prop :=
  (∀ k, (mapGet st.allNodes k).isSome = true ↔ ∃ p, (p, true) ∈ st.fetchLog ∧ pairKey p = k) ∧
  (∀ k, k ∈ st.visited ↔ ∃ e ∈ st.fetchLog, pairKey e.1 = k) ∧
  (∀ e ∈ st.fetchLog, e.2 = (fetchObject store e.1.1 e.1.2).isSome) ∧
  (∀ e ∈ st.allNodes, e.1 = keyOf e.2.type e.2.id) ∧
  (st.allNodes.map Prod.fst).Nodup

/-- Scope invariants of one call: every attempted fetch is an occurring pair,
and every successful fetch is reachable from the root within `maxDepth`. -/
def ScopedInv (store : ObjectStore) (rootId rootType : String) (maxDepth : Nat)
    (st : TravState) : Prop :=
  (∀ e ∈ st.fetchLog, e.1 ∈ occPairs store rootId rootType) ∧
  (∀ p : String × String, (p, true) ∈ st.fetchLog →
    p ∈ reachP store maxDepth (rootType, rootId))

/-- Precondition of a `visit` call: the pair occurs, and when it exists in the
store the call depth is within budget, the subtree below it respects the
remaining depth budget, and it is reachable from the root within the call
depth. -/
def VisitPre (store : ObjectStore) (rootId rootType : String) (maxDepth : Nat)
    (id type : String) (depth : Nat) : Prop :=
  (type, id) ∈ occPairs store rootId rootType ∧
  (inStoreP store (type, id) = true →
    depth ≤ maxDepth ∧ depthLE store (maxDepth - depth) (type, id) = true ∧
    (type, id) ∈ reachP store depth (rootType, rootId))

/-- Task precondition: a `visit` satisfies `VisitPre`; an `expand` satisfies
`VisitPre` at `depth + 1` for every pending reference. -/
def TaskPre (store : ObjectStore) (rootId rootType : String) (maxDepth : Nat) :
    TravTask → Prop
  | .visit id type depth => VisitPre store rootId rootType maxDepth id type depth
  | .expand _ _ _ depth refs =>
    ∀ r ∈ refs, VisitPre store rootId rootType maxDepth r.id r.type (depth + 1)

/-- Closure of the traversal state up to a stack of excused pending edges:
every in-store reference of every successfully fetched object has a visited
key, unless it is still pending in the excuse stack. -/
def ClosedExc (store : ObjectStore) (st : TravState)
    (E : List ((String × String) × List SavedObjectRef)) : Prop :=
  ∀ p obj, (p, true) ∈ st.fetchLog → fetchObject store p.1 p.2 = some obj →
    ∀ r ∈ obj.references, inStoreP store (r.type, r.id) = true →
      keyOf r.type r.id ∈ st.visited ∨ ∃ rem, (p, rem) ∈ E ∧ r ∈ rem

/-! ## Theorems: health scoring -/

/-- The clamped score is never negative. -/
theorem healthScore_nonneg (u w g : Nat) : 0 ≤ healthScore u w g :=
  le_max_left _ _

/-- The clamped score never exceeds 100. -/
theorem healthScore_le_hundred (u w g : Nat) : healthScore u w g ≤ 100 :=
  max_le (by norm_num) (min_le_left _ _)

/-- The clamped score is antitone in each of the three counts. -/
theorem healthScore_antitone {u u' w w' g g' : Nat}
    (hu : u ≤ u') (hw : w ≤ w') (hg : g ≤ g') :
    healthScore u' w' g' ≤ healthScore u w g := by
  unfold healthScore
  refine max_le_max (le_refl 0) (min_le_min (le_refl 100) ?_)
  omega

/-- On the long path, the returned score is the clamped linear formula of the
returned summary counts and global-issue count. -/
theorem analyzeDashboardHealth_score (client : HealthClient) (dashboardId : String)
    (space : Option String) (chk : Bool) (dash : DashboardObj) (ps : List Panel)
    (res : DashboardHealth)
    (hget : client.getDashboard space dashboardId = .ok dash)
    (hps : dash.attributes.panelsJSON = some ps)
    (hres : analyzeDashboardHealth client dashboardId space chk = .ok res) :
    res.overall_score =
      healthScore res.summary.unhealthy_panels res.summary.warning_panels
        res.global_issues.length := by
  unfold analyzeDashboardHealth at hres
  rw [hget] at hres
  dsimp only at hres
  rw [hps] at hres
  dsimp only at hres
  injection hres with h
  subst h
  rfl

/-- C2 (counterexample): a dashboard whose panel layout is present but holds
zero panels takes the long path and comes back with score 100, status healthy
and no global issue, refuting the claimed result for "a dashboard with zero
panels". -/
theorem C2_zero_panels_counterexample :
    analyzeDashboardHealth clientC2 "d0" none false = .ok resC2 ∧
    resC2.panel_count = 0 ∧
    ¬ (resC2.overall_score = 0 ∧ resC2.overall_status = .unhealthy ∧
       resC2.global_issues.length = 1) := by
  refine ⟨rfl, rfl, ?_⟩
  intro h
  exact absurd h.1 (by decide)

/-- C2 (amended): a dashboard with no panel layout at all (absent or falsy
`panelsJSON`) short-circuits to score 0, status unhealthy, an empty panels
list and exactly one global issue of severity error and category
configuration. -/
theorem C2_no_layout_short_circuit (client : HealthClient) (dashboardId : String)
    (space : Option String) (chk : Bool) (dash : DashboardObj)
    (hget : client.getDashboard space dashboardId = .ok dash)
    (hps : dash.attributes.panelsJSON = none) :
    ∃ res, analyzeDashboardHealth client dashboardId space chk = .ok res ∧
      res.overall_score = 0 ∧ res.overall_status = .unhealthy ∧ res.panels = [] ∧
      res.global_issues.length = 1 ∧
      ∀ i ∈ res.global_issues, i.severity = .error ∧ i.category = .configuration := by
  refine ⟨noPanelsHealth dashboardId (dash.attributes.title.getD dashboardId), ?_, rfl, rfl, rfl, rfl, ?_⟩
  · unfold analyzeDashboardHealth
    rw [hget]
    dsimp only
    rw [hps]
  · intro i hi
    simp only [noPanelsHealth, List.mem_singleton] at hi
    subst hi
    exact ⟨rfl, rfl⟩

/-- Witness for C2 (amended) at a concrete no-layout dashboard. -/
theorem C2_no_layout_short_circuit_witness :
    clientW2.getDashboard none "d" = .ok dashW2 ∧
    dashW2.attributes.panelsJSON = none ∧
    ∃ res, analyzeDashboardHealth clientW2 "d" none false = .ok res ∧
      res.overall_score = 0 ∧ res.overall_status = .unhealthy ∧ res.panels = [] ∧
      res.global_issues.length = 1 ∧
      ∀ i ∈ res.global_issues, i.severity = .error ∧ i.category = .configuration :=
  ⟨rfl, rfl, C2_no_layout_short_circuit clientW2 "d" none false dashW2 rfl rfl⟩

/-- C5: on every dashboard with a panel layout, the returned score is
`clamp(0, 100, 100 - 20*unhealthy - 5*warning - 10*globalIssues)` of the
returned counts, hence lies in `[0, 100]`; and the clamped formula is
monotonically non-increasing in each count. -/
theorem C5_score_formula_and_monotone :
    (∀ (client : HealthClient) (dashboardId : String) (space : Option String) (chk : Bool)
        (dash : DashboardObj) (ps : List Panel) (res : DashboardHealth),
      client.getDashboard space dashboardId = .ok dash →
      dash.attributes.panelsJSON = some ps →
      analyzeDashboardHealth client dashboardId space chk = .ok res →
      res.overall_score =
          healthScore res.summary.unhealthy_panels res.summary.warning_panels
            res.global_issues.length ∧
        0 ≤ res.overall_score ∧ res.overall_score ≤ 100) ∧
    ∀ u u' w w' g g' : Nat, u ≤ u' → w ≤ w' → g ≤ g' →
      healthScore u' w' g' ≤ healthScore u w g := by
  constructor
  · intro client dashboardId space chk dash ps res hget hps hres
    have hscore := analyzeDashboardHealth_score client dashboardId space chk dash ps res hget hps hres
    refine ⟨hscore, ?_, ?_⟩
    · rw [hscore]; exact healthScore_nonneg _ _ _
    · rw [hscore]; exact healthScore_le_hundred _ _ _
  · intro u u' w w' g g' hu hw hg
    exact healthScore_antitone hu hw hg

/-- Witness for C5 at a concrete one-panel dashboard, including a concrete
monotonicity instance. -/
theorem C5_score_formula_and_monotone_witness :
    analyzeDashboardHealth clientW5 "d1" none false = .ok resW5 ∧
    (resW5.overall_score =
        healthScore resW5.summary.unhealthy_panels resW5.summary.warning_panels
          resW5.global_issues.length ∧
      0 ≤ resW5.overall_score ∧ resW5.overall_score ≤ 100) ∧
    healthScore 50 0 0 ≤ healthScore 0 0 0 :=
  ⟨rfl,
   C5_score_formula_and_monotone.1 clientW5 "d1" none false dashW5 [pW5] resW5 rfl rfl rfl,
   C5_score_formula_and_monotone.2 0 50 0 0 0 0 (by omega) (by omega) (by omega)⟩

/-! ## Theorems: batch scanner and the 404-only reference check -/

/-- Length of a `filterMap` as the number of elements on which the function
succeeds. -/
theorem length_filterMap_isSome {α β : Type} (f : α → Option β) (l : List α) :
    (l.filterMap f).length = (l.filter (fun a => (f a).isSome)).length := by
  induction l with
  | nil => rfl
  | cons x xs ih =>
    cases hfx : f x <;> simp [List.filterMap_cons, List.filter_cons, hfx, ih]

/-- C7: the batch scanner keeps exactly the dashboards whose analysis
succeeded, and `total_dashboards` counts the retained reports, not the listed
dashboards. -/
theorem C7_batch_drops_failed_dashboards :
    ∀ (client : HealthClient) (space : Option String) (maxDashboards : Nat)
      (ds : List FoundDash) (rep : BatchHealthReport),
      client.findDashboards space maxDashboards = .ok ds →
      batchAnalyzeDashboards client space maxDashboards = .ok rep →
      rep.summary.total_dashboards = rep.dashboards.length ∧
      rep.dashboards.length =
        (ds.filter
          (fun d => (analyzeDashboardHealth client d.id space false).toOption.isSome)).length := by
  intro client space maxD ds rep hfind hrep
  unfold batchAnalyzeDashboards at hrep
  rw [hfind] at hrep
  dsimp only at hrep
  injection hrep with h
  subst h
  exact ⟨rfl, length_filterMap_isSome _ _⟩

/-- Witness for C7: ten listed dashboards of which exactly one fails to
analyze leave nine reports and `total_dashboards = 9`. -/
theorem C7_batch_drops_failed_dashboards_witness :
    batchAnalyzeDashboards clientW7 none 50 = .ok repW7 ∧
    repW7.summary.total_dashboards = repW7.dashboards.length ∧
    repW7.dashboards.length = 9 :=
  ⟨rfl,
   (C7_batch_drops_failed_dashboards clientW7 none 50
      ((List.range 10).map (fun i => { id := "d" ++ toString (i + 1) })) repW7 rfl rfl).1,
   by decide⟩

/-- C9: with the panel reference present, only a 404 fetch failure produces
the critical broken-reference issue; any other failure produces no issue from
that check, so a panel passing the remaining checks is reported healthy even
though its referenced object is unreachable. -/
theorem C9_only_404_yields_broken_reference :
    ∀ (client : HealthClient) (space : Option String) (references : List SavedObjectRef)
      (panel : Panel) (ref : SavedObjectRef) (e : FetchError),
      findReference references panel = some ref →
      client.getObject space ref.type ref.id = .error e →
      (e.status = some 404 →
        brokenRefIssue ref ∈ panelIssues client space references panel) ∧
      (e.status ≠ some 404 →
        (∀ i ∈ panelIssues client space references panel,
          i.category ≠ IssueCategory.broken_reference) ∧
        (panel.gridData.w * panel.gridData.h ≤ 48 → ∀ t, panel.type = some t →
          panelIssues client space references panel = [] ∧
          panelStatusOf (panelIssues client space references panel) = .healthy)) := by
  intro client space references panel ref e hfindr hget
  unfold panelIssues refIssues
  rw [hfindr]
  dsimp only
  rw [hget]
  dsimp only
  constructor
  · intro h404
    rw [if_pos (show (e.status == some 404) = true by simp [h404])]
    exact List.mem_append.mpr (Or.inl (List.mem_append.mpr (Or.inl (List.mem_singleton.mpr rfl))))
  · intro hne
    rw [if_neg (show ¬ ((e.status == some 404) = true) by simp [hne])]
    constructor
    · intro i hi
      simp only [List.nil_append, List.mem_append] at hi
      rcases hi with h1 | h2
      · by_cases hs : panel.gridData.w * panel.gridData.h > 48
        · rw [if_pos hs] at h1
          simp only [List.mem_singleton] at h1
          subst h1
          simp [oversizeIssue]
        · rw [if_neg hs] at h1
          simp at h1
      · cases htyp : panel.type with
        | none =>
          rw [htyp] at h2
          dsimp only at h2
          simp only [List.mem_singleton] at h2
          subst h2
          simp [missingTypeIssue]
        | some t =>
          rw [htyp] at h2
          dsimp only at h2
          simp at h2
    · intro hsize t htype
      rw [htype]
      dsimp only
      rw [if_neg (show ¬ (panel.gridData.w * panel.gridData.h > 48) by omega)]
      exact ⟨rfl, rfl⟩

/-- Witness for C9: a concrete panel whose referenced object fails with 500 is
healthy, while the same panel against a 404-failing client gets the critical
broken-reference issue. -/
theorem C9_only_404_yields_broken_reference_witness :
    findReference [refW9] pW9 = some refW9 ∧
    panelIssues clientW9 none [refW9] pW9 = [] ∧
    panelStatusOf (panelIssues clientW9 none [refW9] pW9) = .healthy ∧
    brokenRefIssue refW9 ∈ panelIssues clientW9b none [refW9] pW9 :=
  ⟨rfl,
   ((C9_only_404_yields_broken_reference clientW9 none [refW9] pW9 refW9
        { status := some 500 } rfl rfl).2 (by decide)).2 (by decide) "lens" rfl |>.1,
   ((C9_only_404_yields_broken_reference clientW9 none [refW9] pW9 refW9
        { status := some 500 } rfl rfl).2 (by decide)).2 (by decide) "lens" rfl |>.2,
   (C9_only_404_yields_broken_reference clientW9b none [refW9] pW9 refW9
        { status := some 404 } rfl rfl).1 rfl⟩

/-! ## Theorems: impact analyzer -/

/-- The returned risk level is the if-chain over the returned affected
dashboard count. -/
theorem analyzeImpact_risk (client : ImpactClient) (targetId targetType : String)
    (space : Option String) (res : ImpactAnalysis)
    (hres : analyzeImpact client targetId targetType space = .ok res) :
    res.risk_level = riskOfCount res.affected_dashboards.length := by
  unfold analyzeImpact analyzeImpactCore at hres
  cases hfind : client.find space impactFindTypes targetType targetId 100 with
  | error e => rw [hfind] at hres; exact absurd hres (by simp [Except.mapError])
  | ok deps =>
    rw [hfind] at hres
    dsimp only at hres
    cases hloop : indirectLoop client space deps 0 with
    | error e => rw [hloop] at hres; exact absurd hres (by simp [Except.mapError])
    | ok n =>
      rw [hloop] at hres
      dsimp only at hres
      cases hget : client.get space targetType targetId with
      | error e => rw [hget] at hres; exact absurd hres (by simp [Except.mapError])
      | ok tobj =>
        rw [hget] at hres
        dsimp only [Except.mapError] at hres
        injection hres with h
        subst h
        rfl

/-- C3: the risk level is the strict cut-point classification of
`affected_dashboards.length` alone (0 Low, 1-5 Medium, 6-10 High, above 10
Critical), and is monotonically non-decreasing in that count across any two
analyses, independently of `indirect_dependencies`. -/
theorem C3_risk_thresholds_and_monotone :
    (∀ (client : ImpactClient) (targetId targetType : String) (space : Option String)
        (res : ImpactAnalysis),
      analyzeImpact client targetId targetType space = .ok res →
      (res.affected_dashboards.length = 0 → res.risk_level = .Low) ∧
      (1 ≤ res.affected_dashboards.length ∧ res.affected_dashboards.length ≤ 5 →
        res.risk_level = .Medium) ∧
      (6 ≤ res.affected_dashboards.length ∧ res.affected_dashboards.length ≤ 10 →
        res.risk_level = .High) ∧
      (10 < res.affected_dashboards.length → res.risk_level = .Critical)) ∧
    (∀ (c c' : ImpactClient) (i i' t t' : String) (sp sp' : Option String)
        (res res' : ImpactAnalysis),
      analyzeImpact c i t sp = .ok res →
      analyzeImpact c' i' t' sp' = .ok res' →
      res.affected_dashboards.length ≤ res'.affected_dashboards.length →
      riskRank res.risk_level ≤ riskRank res'.risk_level) := by
  have hrank : ∀ n m : Nat, n ≤ m → riskRank (riskOfCount n) ≤ riskRank (riskOfCount m) := by
    intro n m h
    unfold riskOfCount
    split_ifs <;> simp only [riskRank] <;> omega
  constructor
  · intro client targetId targetType space res hres
    rw [analyzeImpact_risk client targetId targetType space res hres]
    unfold riskOfCount
    refine ⟨?_, ?_, ?_, ?_⟩ <;> intro hlen <;> split_ifs <;> first | rfl | (exfalso; omega)
  · intro c c' i i' t t' sp sp' res res' h1 h2 hle
    rw [analyzeImpact_risk c i t sp res h1, analyzeImpact_risk c' i' t' sp' res' h2]
    exact hrank _ _ hle

/-- Witness for C3 at two concrete analyses with 2 and 7 affected
dashboards. -/
theorem C3_risk_thresholds_and_monotone_witness :
    analyzeImpact clientW3 "t1" "index-pattern" none = .ok resW3 ∧
    analyzeImpact clientW3b "t1" "index-pattern" none = .ok resW3b ∧
    resW3.affected_dashboards.length = 2 ∧
    resW3b.affected_dashboards.length = 7 ∧
    resW3.risk_level = .Medium ∧
    resW3b.risk_level = .High ∧
    riskRank resW3.risk_level ≤ riskRank resW3b.risk_level :=
  ⟨rfl, rfl, by decide, by decide,
   ((C3_risk_thresholds_and_monotone.1 clientW3 "t1" "index-pattern" none resW3 rfl).2.1
     (by decide)),
   ((C3_risk_thresholds_and_monotone.1 clientW3b "t1" "index-pattern" none resW3b rfl).2.2.1
     (by decide)),
   C3_risk_thresholds_and_monotone.2 clientW3 clientW3b "t1" "t1" "index-pattern"
     "index-pattern" none none resW3 resW3b rfl rfl (by decide)⟩

/-- A successful indirect loop returns the plain running sum of the hit
counts of the per-dependent dashboard-restricted reverse finds. -/
theorem indirectLoop_sum (client : ImpactClient) (space : Option String) :
    ∀ (l : List FoundObj) (acc n : Nat),
      indirectLoop client space l acc = .ok n →
      n = (l.filter (fun d => d.type != "dashboard")).foldl
            (fun a d =>
              a + ((client.find space ["dashboard"] d.type d.id 100).toOption.getD []).length)
            acc := by
  intro l
  induction l with
  | nil =>
    intro acc n h
    injection h with h
    rw [List.filter_nil, List.foldl_nil, h]
  | cons x xs ih =>
    intro acc n h
    unfold indirectLoop at h
    rw [List.filter_cons]
    by_cases hx : (x.type != "dashboard") = true
    · rw [if_pos hx] at h
      cases hf : client.find space ["dashboard"] x.type x.id 100 with
      | error e => rw [hf] at h; exact absurd h (by simp)
      | ok hits =>
        rw [hf] at h
        rw [hx, if_pos rfl, List.foldl_cons, hf]
        dsimp only [Except.toOption, Option.getD]
        exact ih (acc + hits.length) n h
    · rw [if_neg hx] at h
      rw [if_neg (by simpa using hx)]
      exact ih acc n h

/-- C10: `indirect_dependencies` is the raw, non-deduplicated sum of the
reverse-find hit counts over the non-dashboard direct dependents. -/
theorem C10_indirect_raw_sum :
    ∀ (client : ImpactClient) (targetId targetType : String) (space : Option String)
      (deps : List FoundObj) (res : ImpactAnalysis),
      client.find space impactFindTypes targetType targetId 100 = .ok deps →
      analyzeImpact client targetId targetType space = .ok res →
      res.indirect_dependencies =
        (deps.filter (fun d => d.type != "dashboard")).foldl
          (fun a d =>
            a + ((client.find space ["dashboard"] d.type d.id 100).toOption.getD []).length)
          0 := by
  intro client targetId targetType space deps res hfind hres
  unfold analyzeImpact analyzeImpactCore at hres
  rw [hfind] at hres
  dsimp only at hres
  cases hloop : indirectLoop client space deps 0 with
  | error e => rw [hloop] at hres; exact absurd hres (by simp [Except.mapError])
  | ok n =>
    rw [hloop] at hres
    dsimp only at hres
    cases hget : client.get space targetType targetId with
    | error e => rw [hget] at hres; exact absurd hres (by simp [Except.mapError])
    | ok tobj =>
      rw [hget] at hres
      dsimp only [Except.mapError] at hres
      injection hres with h
      subst h
      exact indirectLoop_sum client space deps 0 n hloop

/-- Witness for C10: dashboard `D` is a direct dependent (so it is in
`affected_dashboards`) and is also hit by the second-level find of both
non-dashboard dependents `v1` and `v2`, so `indirect_dependencies = 2`. -/
theorem C10_indirect_raw_sum_witness :
    analyzeImpact clientW10 "x" "index-pattern" none = .ok resW10 ∧
    resW10.indirect_dependencies =
      (([{ id := "D", type := "dashboard", title := some "D" },
         { id := "v1", type := "visualization", title := none },
         { id := "v2", type := "visualization", title := none }]
          : List FoundObj).filter (fun d => d.type != "dashboard")).foldl
        (fun a d =>
          a + ((clientW10.find none ["dashboard"] d.type d.id 100).toOption.getD []).length)
        0 ∧
    resW10.indirect_dependencies = 2 ∧
    resW10.affected_dashboards = [{ id := "D", type := "dashboard", name := "D" }] :=
  ⟨rfl,
   C10_indirect_raw_sum clientW10 "x" "index-pattern" none
     [{ id := "D", type := "dashboard", title := some "D" },
      { id := "v1", type := "visualization", title := none },
      { id := "v2", type := "visualization", title := none }] resW10 rfl rfl,
   by decide, by decide⟩

/-! ## Theorems: node map operations -/

/-- Lookup at the head key. -/
theorem mapGet_cons_pos (e : String × DependencyNode) (rest : NodeMap) (k : String)
    (h : e.1 = k) : mapGet (e :: rest) k = some e.2 := by
  unfold mapGet
  rw [List.find?_cons_of_pos _ (by simp [h])]
  rfl

/-- Lookup skipping the head. -/
theorem mapGet_cons_neg (e : String × DependencyNode) (rest : NodeMap) (k : String)
    (h : e.1 ≠ k) : mapGet (e :: rest) k = mapGet rest k := by
  unfold mapGet
  rw [List.find?_cons_of_neg _ (by simp [h])]

/-- A lookup succeeds exactly when some entry carries the key. -/
theorem mapGet_isSome_iff (m : NodeMap) (k : String) :
    (mapGet m k).isSome = true ↔ ∃ v, (k, v) ∈ m := by
  induction m with
  | nil => simp [mapGet]
  | cons e rest ih =>
    by_cases he : e.1 = k
    · rw [mapGet_cons_pos e rest k he]
      simp only [Option.isSome_some, true_iff]
      exact ⟨e.2, by rw [← he]; exact List.mem_cons_self _ _⟩
    · rw [mapGet_cons_neg e rest k he]
      rw [ih]
      constructor
      · rintro ⟨v, hv⟩
        exact ⟨v, List.mem_cons_of_mem _ hv⟩
      · rintro ⟨v, hv⟩
        rcases List.mem_cons.mp hv with h1 | h2
        · exact absurd (congrArg Prod.fst h1).symm he
        · exact ⟨v, h2⟩

/-- A lookup succeeds exactly when the key occurs in the key list. -/
theorem mapGet_isSome_iff_mem_keys (m : NodeMap) (k : String) :
    (mapGet m k).isSome = true ↔ k ∈ m.map Prod.fst := by
  rw [mapGet_isSome_iff]
  constructor
  · rintro ⟨v, hv⟩
    exact List.mem_map.mpr ⟨(k, v), hv, rfl⟩
  · intro h
    rcases List.mem_map.mp h with ⟨e, he, hk⟩
    exact ⟨e.2, by rw [← hk]; exact he⟩

/-- Insertion stores the value under the key. -/
theorem mapGet_mapSet_self (m : NodeMap) (k : String) (v : DependencyNode) :
    mapGet (mapSet m k v) k = some v := by
  induction m with
  | nil => exact mapGet_cons_pos _ _ _ rfl
  | cons e rest ih =>
    unfold mapSet
    by_cases he : e.1 = k
    · rw [if_pos he]
      exact mapGet_cons_pos _ _ _ rfl
    · rw [if_neg he, mapGet_cons_neg e _ k he]
      exact ih

/-- Insertion leaves other keys untouched. -/
theorem mapGet_mapSet_ne (m : NodeMap) (k k' : String) (v : DependencyNode)
    (h : k' ≠ k) : mapGet (mapSet m k v) k' = mapGet m k' := by
  induction m with
  | nil =>
    unfold mapSet
    rw [mapGet_cons_neg _ _ _ (Ne.symm h)]
  | cons e rest ih =>
    unfold mapSet
    by_cases he : e.1 = k
    · rw [if_pos he, mapGet_cons_neg _ _ _ (Ne.symm h), mapGet_cons_neg _ _ _ (by rw [he]; exact Ne.symm h)]
    · rw [if_neg he]
      by_cases he' : e.1 = k'
      · rw [mapGet_cons_pos _ _ _ he', mapGet_cons_pos _ _ _ he']
      · rw [mapGet_cons_neg _ _ _ he', mapGet_cons_neg _ _ _ he', ih]

/-- Entries of an insertion. -/
theorem mem_mapSet (m : NodeMap) (k : String) (v : DependencyNode)
    (e : String × DependencyNode) (he : e ∈ mapSet m k v) : e = (k, v) ∨ e ∈ m := by
  induction m with
  | nil =>
    rcases List.mem_singleton.mp he with h
    exact Or.inl h
  | cons x rest ih =>
    unfold mapSet at he
    by_cases hx : x.1 = k
    · rw [if_pos hx] at he
      rcases List.mem_cons.mp he with h1 | h2
      · exact Or.inl h1
      · exact Or.inr (List.mem_cons_of_mem _ h2)
    · rw [if_neg hx] at he
      rcases List.mem_cons.mp he with h1 | h2
      · exact Or.inr (by rw [h1]; exact List.mem_cons_self _ _)
      · rcases ih h2 with h3 | h4
        · exact Or.inl h3
        · exact Or.inr (List.mem_cons_of_mem _ h4)

/-- Key list of an insertion: existing keys, plus the key when it is new. -/
theorem keys_mapSet (m : NodeMap) (k : String) (v : DependencyNode) :
    (mapSet m k v).map Prod.fst =
      if k ∈ m.map Prod.fst then m.map Prod.fst else m.map Prod.fst ++ [k] := by
  induction m with
  | nil => simp [mapSet]
  | cons e rest ih =>
    unfold mapSet
    by_cases he : e.1 = k
    · rw [if_pos he]
      simp [he]
    · rw [if_neg he]
      simp only [List.map_cons, List.mem_cons]
      rw [ih]
      by_cases hk : k ∈ rest.map Prod.fst
      · rw [if_pos hk, if_pos (Or.inr hk)]
      · rw [if_neg hk, if_neg (by rintro (h | h); exact he h.symm; exact hk h)]
        simp

/-- Insertion preserves distinctness of the keys. -/
theorem nodup_keys_mapSet (m : NodeMap) (k : String) (v : DependencyNode)
    (h : (m.map Prod.fst).Nodup) : ((mapSet m k v).map Prod.fst).Nodup := by
  rw [keys_mapSet]
  by_cases hk : k ∈ m.map Prod.fst
  · rw [if_pos hk]; exact h
  · rw [if_neg hk]
    rw [List.nodup_append]
    exact ⟨h, List.nodup_singleton _, by simpa using fun hx => hk hx⟩

/-- Updating rewrites the stored value pointwise. -/
theorem mapGet_mapUpdate_self (m : NodeMap) (k : String) (f : DependencyNode → DependencyNode) :
    mapGet (mapUpdate m k f) k = (mapGet m k).map f := by
  induction m with
  | nil => rfl
  | cons e rest ih =>
    show mapGet ((if e.1 = k then (e.1, f e.2) else e) :: mapUpdate rest k f) k = _
    by_cases he : e.1 = k
    · rw [if_pos he, mapGet_cons_pos (e.1, f e.2) (mapUpdate rest k f) k he,
        mapGet_cons_pos e rest k he]
      rfl
    · rw [if_neg he, mapGet_cons_neg _ _ _ he, mapGet_cons_neg _ _ _ he]
      exact ih

/-- Updating leaves other keys untouched. -/
theorem mapGet_mapUpdate_ne (m : NodeMap) (k k' : String) (f : DependencyNode → DependencyNode)
    (h : k' ≠ k) : mapGet (mapUpdate m k f) k' = mapGet m k' := by
  induction m with
  | nil => rfl
  | cons e rest ih =>
    show mapGet ((if e.1 = k then (e.1, f e.2) else e) :: mapUpdate rest k f) k' = _
    by_cases he : e.1 = k
    · rw [if_pos he]
      rw [mapGet_cons_neg _ _ _ (show (e.1, f e.2).1 ≠ k' by simpa [he] using fun hk => h hk.symm),
        mapGet_cons_neg _ _ _ (show e.1 ≠ k' by rw [he]; exact fun hk => h hk.symm)]
      exact ih
    · rw [if_neg he]
      by_cases he' : e.1 = k'
      · rw [mapGet_cons_pos _ _ _ he', mapGet_cons_pos _ _ _ he']
      · rw [mapGet_cons_neg _ _ _ he', mapGet_cons_neg _ _ _ he']
        exact ih

/-- Updating preserves lookup success everywhere. -/
theorem isSome_mapGet_mapUpdate (m : NodeMap) (k k' : String)
    (f : DependencyNode → DependencyNode) :
    (mapGet (mapUpdate m k f) k').isSome = (mapGet m k').isSome := by
  by_cases h : k' = k
  · subst h
    rw [mapGet_mapUpdate_self]
    cases mapGet m k' <;> rfl
  · rw [mapGet_mapUpdate_ne m k k' f h]

/-- Updating does not change the key list. -/
theorem keys_mapUpdate (m : NodeMap) (k : String) (f : DependencyNode → DependencyNode) :
    (mapUpdate m k f).map Prod.fst = m.map Prod.fst := by
  unfold mapUpdate
  rw [List.map_map]
  apply List.map_congr_left
  intro e _
  by_cases he : e.1 = k
  · simp [he]
  · simp [he]

/-- Entries of an update come from entries of the map. -/
theorem mem_mapUpdate (m : NodeMap) (k : String) (f : DependencyNode → DependencyNode)
    (e : String × DependencyNode) (he : e ∈ mapUpdate m k f) :
    ∃ x ∈ m, e = if x.1 = k then (x.1, f x.2) else x := by
  rcases List.mem_map.mp he with ⟨x, hx, hfx⟩
  exact ⟨x, hx, hfx.symm⟩

/-! ## Theorems: traversal state monotonicity -/

/-- A successful run only grows the visited set, the fetch log, and the set of
mapped keys. -/
theorem runTraverse_mono (store : ObjectStore) (maxDepth : Nat) :
    ∀ (fuel : Nat) (st : TravState) (t : TravTask) (st' : TravState),
      runTraverse store maxDepth fuel st t = some st' →
      (∀ k ∈ st.visited, k ∈ st'.visited) ∧
      (∀ e ∈ st.fetchLog, e ∈ st'.fetchLog) ∧
      (∀ k, (mapGet st.allNodes k).isSome = true → (mapGet st'.allNodes k).isSome = true) := by
  intro fuel
  induction fuel with
  | zero =>
    intro st t st' h
    exact absurd h (by simp [runTraverse])
  | succ fuel ih =>
    intro st t st' h
    cases t with
    | visit id type depth =>
      rw [runTraverse] at h
      split at h
      · injection h with h
        subst h
        exact ⟨fun k hk => hk, fun e he => he, fun k hk => hk⟩
      · dsimp only at h
        cases hfetch : fetchObject store type id with
        | none =>
          rw [hfetch] at h
          injection h with h
          subst h
          exact ⟨fun k hk => List.mem_cons_of_mem _ hk, fun e he => List.mem_cons_of_mem _ he,
            fun k hk => hk⟩
        | some obj =>
          rw [hfetch] at h
          dsimp only at h
          have hrec := ih _ _ _ h
          refine ⟨fun k hk => hrec.1 k (List.mem_cons_of_mem _ hk),
            fun e he => hrec.2.1 e (List.mem_cons_of_mem _ he),
            fun k hk => hrec.2.2 k ?_⟩
          by_cases hkk : k = keyOf type id
          · subst hkk
            rw [mapGet_mapSet_self]
            rfl
          · rw [mapGet_mapSet_ne _ _ _ _ hkk]
            exact hk
    | expand pid ptype ptitle depth refs =>
      cases refs with
      | nil =>
        rw [runTraverse] at h
        injection h with h
        subst h
        exact ⟨fun k hk => hk, fun e he => he, fun k hk => hk⟩
      | cons ref rest =>
        rw [runTraverse] at h
        cases hv : runTraverse store maxDepth fuel st (.visit ref.id ref.type (depth + 1)) with
        | none => rw [hv] at h; exact absurd h (by simp)
        | some st1 =>
          rw [hv] at h
          dsimp only at h
          have h1 := ih _ _ _ hv
          have h2 := ih _ _ _ h
          refine ⟨fun k hk => h2.1 k (h1.1 k hk), fun e he => h2.2.1 e (h1.2.1 e he),
            fun k hk => h2.2.2 k ?_⟩
          unfold pushReferencedBy
          dsimp only
          rw [isSome_mapGet_mapUpdate]
          exact h1.2.2 k hk

/-! ## Theorems: preservation of the state invariants -/

/-- Pushing a reverse reference preserves the state invariants. -/
theorem StInv_push (store : ObjectStore) (st : TravState) (k : String)
    (entry : SavedObjectRef) (h : StInv store st) :
    StInv store (pushReferencedBy st k entry) := by
  obtain ⟨i1, i2, i3, i4, i5⟩ := h
  unfold pushReferencedBy
  refine ⟨?_, i2, i3, ?_, ?_⟩
  · intro k'
    dsimp only
    rw [isSome_mapGet_mapUpdate]
    exact i1 k'
  · intro e he
    dsimp only at he
    rcases mem_mapUpdate _ _ _ _ he with ⟨x, hx, hex⟩
    by_cases hxk : x.1 = k
    · rw [if_pos hxk] at hex
      subst hex
      exact i4 x hx
    · rw [if_neg hxk] at hex
      subst hex
      exact i4 _ hx
  · dsimp only
    rw [keys_mapUpdate]
    exact i5

/-- A failed fetch (visited mark plus a false log entry) preserves the state
invariants. -/
theorem StInv_fetch_fail (store : ObjectStore) (st : TravState) (id type : String)
    (hfetch : fetchObject store type id = none) (h : StInv store st) :
    StInv store
      { allNodes := st.allNodes
        visited := keyOf type id :: st.visited
        fetchLog := ((type, id), false) :: st.fetchLog } := by
  obtain ⟨i1, i2, i3, i4, i5⟩ := h
  refine ⟨?_, ?_, ?_, i4, i5⟩
  · intro k
    dsimp only
    rw [i1 k]
    constructor
    · rintro ⟨p, hp, hpk⟩
      exact ⟨p, List.mem_cons_of_mem _ hp, hpk⟩
    · rintro ⟨p, hp, hpk⟩
      rcases List.mem_cons.mp hp with h1 | h2
      · exact absurd (congrArg Prod.snd h1) (by simp)
      · exact ⟨p, h2, hpk⟩
  · intro k
    dsimp only
    constructor
    · intro hk
      rcases List.mem_cons.mp hk with h1 | h2
      · exact ⟨((type, id), false), List.mem_cons_self _ _, h1.symm⟩
      · rcases (i2 k).mp h2 with ⟨e, he, hek⟩
        exact ⟨e, List.mem_cons_of_mem _ he, hek⟩
    · rintro ⟨e, he, hek⟩
      rcases List.mem_cons.mp he with h1 | h2
      · subst h1
        exact List.mem_cons.mpr (Or.inl hek.symm)
      · exact List.mem_cons_of_mem _ ((i2 k).mpr ⟨e, h2, hek⟩)
  · intro e he
    dsimp only at he
    rcases List.mem_cons.mp he with h1 | h2
    · subst h1
      rw [hfetch]
      rfl
    · exact i3 e h2

/-- A successful fetch (visited mark, true log entry, node insertion)
preserves the state invariants. -/
theorem StInv_fetch_success (store : ObjectStore) (st : TravState) (id type : String)
    (depth : Nat) (obj : SavedObj)
    (hfetch : fetchObject store type id = some obj) (h : StInv store st) :
    StInv store
      { allNodes := mapSet st.allNodes (keyOf type id)
          { id := id, type := type, title := obj.title, referencedBy := []
            references := obj.references, depth := depth }
        visited := keyOf type id :: st.visited
        fetchLog := ((type, id), true) :: st.fetchLog } := by
  obtain ⟨i1, i2, i3, i4, i5⟩ := h
  refine ⟨?_, ?_, ?_, ?_, ?_⟩
  · intro k
    dsimp only
    constructor
    · intro hk
      by_cases hkk : k = keyOf type id
      · exact ⟨(type, id), List.mem_cons_self _ _, hkk.symm⟩
      · rw [mapGet_mapSet_ne _ _ _ _ hkk] at hk
        rcases (i1 k).mp hk with ⟨p, hp, hpk⟩
        exact ⟨p, List.mem_cons_of_mem _ hp, hpk⟩
    · rintro ⟨p, hp, hpk⟩
      rcases List.mem_cons.mp hp with h1 | h2
      · have hpeq : p = (type, id) := congrArg Prod.fst h1
        subst hpeq
        have hkk : pairKey (type, id) = keyOf type id := rfl
        rw [← hpk, hkk, mapGet_mapSet_self]
        rfl
      · by_cases hkk : k = keyOf type id
        · subst hkk
          rw [mapGet_mapSet_self]
          rfl
        · rw [mapGet_mapSet_ne _ _ _ _ hkk]
          exact (i1 k).mpr ⟨p, h2, hpk⟩
  · intro k
    dsimp only
    constructor
    · intro hk
      rcases List.mem_cons.mp hk with h1 | h2
      · exact ⟨((type, id), true), List.mem_cons_self _ _, h1.symm⟩
      · rcases (i2 k).mp h2 with ⟨e, he, hek⟩
        exact ⟨e, List.mem_cons_of_mem _ he, hek⟩
    · rintro ⟨e, he, hek⟩
      rcases List.mem_cons.mp he with h1 | h2
      · subst h1
        exact List.mem_cons.mpr (Or.inl hek.symm)
      · exact List.mem_cons_of_mem _ ((i2 k).mpr ⟨e, h2, hek⟩)
  · intro e he
    dsimp only at he
    rcases List.mem_cons.mp he with h1 | h2
    · subst h1
      rw [hfetch]
      rfl
    · exact i3 e h2
  · intro e he
    dsimp only at he
    rcases mem_mapSet _ _ _ _ he with h1 | h2
    · subst h1
      rfl
    · exact i4 e h2
  · dsimp only
    exact nodup_keys_mapSet _ _ _ i5

/-- A successful run preserves the state invariants. -/
theorem runTraverse_StInv (store : ObjectStore) (maxDepth : Nat) :
    ∀ (fuel : Nat) (st : TravState) (t : TravTask) (st' : TravState),
      runTraverse store maxDepth fuel st t = some st' →
      StInv store st → StInv store st' := by
  intro fuel
  induction fuel with
  | zero =>
    intro st t st' h
    exact absurd h (by simp [runTraverse])
  | succ fuel ih =>
    intro st t st' h hinv
    cases t with
    | visit id type depth =>
      rw [runTraverse] at h
      split at h
      · injection h with h
        subst h
        exact hinv
      · dsimp only at h
        cases hfetch : fetchObject store type id with
        | none =>
          rw [hfetch] at h
          injection h with h
          subst h
          exact StInv_fetch_fail store st id type hfetch hinv
        | some obj =>
          rw [hfetch] at h
          dsimp only at h
          exact ih _ _ _ h (StInv_fetch_success store st id type depth obj hfetch hinv)
    | expand pid ptype ptitle depth refs =>
      cases refs with
      | nil =>
        rw [runTraverse] at h
        injection h with h
        subst h
        exact hinv
      | cons ref rest =>
        rw [runTraverse] at h
        cases hv : runTraverse store maxDepth fuel st (.visit ref.id ref.type (depth + 1)) with
        | none => rw [hv] at h; exact absurd h (by simp)
        | some st1 =>
          rw [hv] at h
          dsimp only at h
          exact ih _ _ _ h (StInv_push store st1 _ _ (ih _ _ _ hv hinv))

/-! ## Theorems: the chosen fuel always suffices -/

/-- Growing the visited set cannot increase the number of unvisited store
entries. -/
theorem unvisited_filter_mono (store : ObjectStore) (v v' : List String)
    (h : ∀ k ∈ v, k ∈ v') :
    (store.filter (fun e => decide (pairKey e.1 ∉ v'))).length ≤
      (store.filter (fun e => decide (pairKey e.1 ∉ v))).length := by
  induction store with
  | nil => simp
  | cons e rest ih =>
    simp only [List.filter_cons]
    by_cases h1 : pairKey e.1 ∈ v'
    · rw [if_neg (by simpa using h1)]
      split
      · exact Nat.le_succ_of_le ih
      · exact ih
    · have h2 : pairKey e.1 ∉ v := fun hv => h1 (h _ hv)
      rw [if_pos (by simpa using h1), if_pos (by simpa using h2)]
      simpa using ih

/-- Visiting the key of an existing, not yet visited object strictly decreases
the number of unvisited store entries. -/
theorem unvisited_filter_decrease (store : ObjectStore) (v : List String)
    (type id : String) (hfetch : (fetchObject store type id).isSome = true)
    (hnv : keyOf type id ∉ v) :
    (store.filter (fun e => decide (pairKey e.1 ∉ (keyOf type id :: v)))).length + 1 ≤
      (store.filter (fun e => decide (pairKey e.1 ∉ v))).length := by
  induction store with
  | nil => simp [fetchObject] at hfetch
  | cons e rest ih =>
    simp only [List.filter_cons]
    by_cases he : e.1 = (type, id)
    · have hkey : pairKey e.1 = keyOf type id := by rw [he]; rfl
      rw [if_neg (by simp [hkey]), if_pos (by simpa [hkey] using hnv)]
      have := unvisited_filter_mono rest v (keyOf type id :: v)
        (fun k hk => List.mem_cons_of_mem _ hk)
      simp only [List.length_cons]
      omega
    · have hfetch' : (fetchObject rest type id).isSome = true := by
        unfold fetchObject at hfetch ⊢
        rw [List.find?_cons_of_neg _ (by simpa using he)] at hfetch
        exact hfetch
      have := ih hfetch'
      by_cases h1 : pairKey e.1 ∈ v
      · rw [if_neg (by simp [h1]), if_neg (by simpa using h1)]
        exact this
      · by_cases h2 : pairKey e.1 = keyOf type id
        · rw [if_neg (by simp [h2]), if_pos (by simpa [h2] using hnv)]
          simp only [List.length_cons]
          omega
        · rw [if_pos (by simp [h1, h2]), if_pos (by simpa using h1)]
          simp only [List.length_cons]
          omega

/-- A reference list read out of the store is no longer than `maxRefsLen`. -/
theorem mem_le_maxRefsLen (store : ObjectStore) (e : (String × String) × SavedObj)
    (he : e ∈ store) : e.2.references.length ≤ maxRefsLen store := by
  induction store with
  | nil => cases he
  | cons x rest ih =>
    show _ ≤ max x.2.references.length (maxRefsLen rest)
    rcases List.mem_cons.mp he with h1 | h2
    · subst h1
      exact le_max_left _ _
    · exact le_trans (ih h2) (le_max_right _ _)

/-- The reference list of a fetched object is no longer than `maxRefsLen`. -/
theorem fetched_refs_le_maxRefsLen (store : ObjectStore) (type id : String) (obj : SavedObj)
    (h : fetchObject store type id = some obj) :
    obj.references.length ≤ maxRefsLen store := by
  unfold fetchObject at h
  cases hf : store.find? (fun e => decide (e.1 = (type, id))) with
  | none => rw [hf] at h; exact absurd h (by simp)
  | some e =>
    rw [hf] at h
    have hobj : obj = e.2 := by
      simpa using h.symm
    rw [hobj]
    exact mem_le_maxRefsLen store e (List.mem_of_find?_eq_some hf)

/-- With enough fuel relative to the unvisited store entries and the pending
task, the traversal cannot run out. -/
theorem runTraverse_progress (store : ObjectStore) (maxDepth : Nat) :
    ∀ (fuel : Nat) (st : TravState) (t : TravTask),
      (match t with
       | .visit _ _ _ =>
         (maxRefsLen store + 1) * unvisitedCount store st + 2 ≤ fuel
       | .expand _ _ _ _ refs =>
         (maxRefsLen store + 1) * unvisitedCount store st + 2 + refs.length ≤ fuel) →
      (runTraverse store maxDepth fuel st t).isSome = true := by
  intro fuel
  induction fuel with
  | zero =>
    intro st t hcost
    exfalso
    cases t <;> dsimp only at hcost <;> omega
  | succ fuel ih =>
    intro st t hcost
    cases t with
    | visit id type depth =>
      dsimp only at hcost
      rw [runTraverse]
      split
      · rfl
      · rename_i hguard
        dsimp only
        cases hfetch : fetchObject store type id with
        | none => rfl
        | some obj =>
          dsimp only
          apply ih
          dsimp only
          have hnv : keyOf type id ∉ st.visited := fun hv => hguard (Or.inl hv)
          have hdec := unvisited_filter_decrease store st.visited type id
            (by rw [hfetch]; rfl) hnv
          have hlen := fetched_refs_le_maxRefsLen store type id obj hfetch
          have hmul :
              (maxRefsLen store + 1) *
                  (unvisitedCount store
                    { allNodes := mapSet st.allNodes (keyOf type id)
                        { id := id, type := type, title := obj.title, referencedBy := []
                          references := obj.references, depth := depth }
                      visited := keyOf type id :: st.visited
                      fetchLog := ((type, id), true) :: st.fetchLog } + 1) ≤
                (maxRefsLen store + 1) * unvisitedCount store st := by
            apply Nat.mul_le_mul_left
            exact hdec
          rw [Nat.mul_add, Nat.mul_one] at hmul
          omega
    | expand pid ptype ptitle depth refs =>
      cases refs with
      | nil => rw [runTraverse]; rfl
      | cons ref rest =>
        dsimp only at hcost
        rw [runTraverse]
        simp only [List.length_cons] at hcost
        have hv : (runTraverse store maxDepth fuel st (.visit ref.id ref.type (depth + 1))).isSome
            = true := by
          apply ih
          dsimp only
          omega
        cases hvis : runTraverse store maxDepth fuel st (.visit ref.id ref.type (depth + 1)) with
        | none => rw [hvis] at hv; exact absurd hv (by simp)
        | some st1 =>
          dsimp only
          apply ih
          dsimp only
          have hsub := (runTraverse_mono store maxDepth fuel st _ st1 hvis).1
          have hmono := unvisited_filter_mono store st.visited st1.visited hsub
          have hmul := Nat.mul_le_mul_left (maxRefsLen store + 1) hmono
          have hpush : unvisitedCount store
              (pushReferencedBy st1 (keyOf ref.type ref.id)
                { id := pid, type := ptype, name := ptitle.getD pid }) =
              unvisitedCount store st1 := rfl
          rw [hpush]
          unfold unvisitedCount at hcost hmul ⊢
          omega

/-- The traversal of `buildDependencyTree` always terminates with its chosen
fuel, whatever the reference graph (cyclic graphs included). -/
theorem runTraverse_total (store : ObjectStore) (rootId rootType : String) (maxDepth : Nat) :
    (finalStateOf store rootId rootType maxDepth).isSome = true := by
  unfold finalStateOf traverseFuel
  apply runTraverse_progress
  dsimp only
  have h1 : unvisitedCount store initialState ≤ store.length :=
    List.length_filter_le _ _
  have h2 := Nat.mul_le_mul_left (maxRefsLen store + 1) h1
  omega

/-- The state invariants hold in every final state. -/
theorem finalState_StInv (store : ObjectStore) (rootId rootType : String) (maxDepth : Nat)
    (st : TravState) (h : finalStateOf store rootId rootType maxDepth = some st) :
    StInv store st := by
  unfold finalStateOf at h
  refine runTraverse_StInv store maxDepth _ _ _ _ h ?_
  refine ⟨?_, ?_, ?_, ?_, ?_⟩ <;> simp [initialState, mapGet]

/-! ## Theorems: which fetches are recorded in the node map (C1) -/

/-- C1 (counterexample): over the empty store, the root fetch is attempted
(and fails), yet nothing is recorded in `allNodes` — the catch branch of
`traverse` returns its stub without `allNodes.set`, so the map does not hold a
node for every fetched key. -/
theorem C1_failed_fetch_not_recorded_counterexample :
    finalStateOf [] "r" "dashboard" 5 = some stC1 ∧
    logHasKey stC1.fetchLog (keyOf "dashboard" "r") = true ∧
    (mapGet stC1.allNodes (keyOf "dashboard" "r")).isSome = false ∧
    (mapGet stC1.allNodes (keyOf "dashboard" "r")).isSome ≠
      logHasKey stC1.fetchLog (keyOf "dashboard" "r") := by
  refine ⟨rfl, rfl, rfl, ?_⟩
  intro h
  exact absurd h (by decide)

/-- C1 (amended): a key is in `allNodes` exactly when some pair with that key
was successfully fetched during the call; a failed fetch is logged and marked
visited but leaves no stub in the map. -/
theorem C1_node_map_iff_successful_fetch :
    ∀ (store : ObjectStore) (rootId rootType : String) (maxDepth : Nat) (st : TravState),
      finalStateOf store rootId rootType maxDepth = some st →
      ∀ k, (mapGet st.allNodes k).isSome = logHasSuccessKey st.fetchLog k := by
  intro store rootId rootType maxDepth st h k
  obtain ⟨i1, _, _, _, _⟩ := finalState_StInv store rootId rootType maxDepth st h
  have hany : logHasSuccessKey st.fetchLog k = true ↔
      ∃ p, (p, true) ∈ st.fetchLog ∧ pairKey p = k := by
    unfold logHasSuccessKey
    rw [List.any_eq_true]
    constructor
    · rintro ⟨e, he, hpe⟩
      rw [Bool.and_eq_true] at hpe
      obtain ⟨h2, h3⟩ := hpe
      refine ⟨e.1, ?_, by simpa using h3⟩
      have he' : e = (e.1, true) := by
        obtain ⟨p, b⟩ := e
        simp only at h2
        rw [h2]
      rw [← he']
      exact he
    · rintro ⟨p, hp, hpk⟩
      exact ⟨(p, true), hp, by simp [hpk]⟩
  exact Bool.eq_iff_iff.mpr ((i1 k).trans hany.symm)

/-- Witness for C1 (amended) on a one-object store: the root key is recorded
and its fetch succeeded. -/
theorem C1_node_map_iff_successful_fetch_witness :
    finalStateOf storeW1 "w" "dashboard" 5 = some stW1 ∧
    (mapGet stW1.allNodes (keyOf "dashboard" "w")).isSome =
      logHasSuccessKey stW1.fetchLog (keyOf "dashboard" "w") ∧
    (mapGet stW1.allNodes (keyOf "dashboard" "w")).isSome = true :=
  ⟨rfl,
   C1_node_map_iff_successful_fetch storeW1 "w" "dashboard" 5 stW1 rfl
     (keyOf "dashboard" "w"),
   by decide⟩

/-! ## Theorems: orphans never contain the root (C8) -/

/-- C8: the orphan list of a dependency tree never contains the root object,
even when nothing references the root: orphan collection filters out the root
key, and every map entry is keyed by its own node. -/
theorem C8_orphans_never_root :
    ∀ (store : ObjectStore) (rootId rootType : String) (maxDepth : Nat),
      ((buildDependencyTree store rootId rootType maxDepth).summary.orphans.all
        (fun o => !(o.id == rootId && o.type == rootType))) = true := by
  intro store rootId rootType maxDepth
  unfold buildDependencyTree
  cases hfin : finalStateOf store rootId rootType maxDepth with
  | none => rfl
  | some st =>
    dsimp only
    obtain ⟨_, _, _, i4, _⟩ := finalState_StInv store rootId rootType maxDepth st hfin
    rw [List.all_eq_true]
    intro o ho
    unfold buildSummary at ho
    dsimp only at ho
    have ho' := List.mem_of_mem_take ho
    rcases List.mem_map.mp ho' with ⟨e, hef, heo⟩
    obtain ⟨hemem, hcond⟩ := List.mem_filter.mp hef
    rw [decide_eq_true_eq] at hcond
    obtain ⟨-, hkne⟩ := hcond
    subst heo
    have hne : ¬ (e.2.id = rootId ∧ e.2.type = rootType) := by
      rintro ⟨h1, h2⟩
      apply hkne
      rw [i4 e hemem, h1, h2]
    simp only [Bool.not_eq_true', Bool.and_eq_false_iff]
    by_cases h1 : e.2.id = rootId
    · right
      exact beq_eq_false_iff_ne.mpr (fun h2 => hne ⟨h1, h2⟩)
    · left
      exact beq_eq_false_iff_ne.mpr h1

/-! ## Theorems: cycles terminate and render as circular references (C6) -/

/-- C6: the traversal terminates on every store (cyclic graphs included); a
second visit of an already-visited key returns the state unchanged instead of
re-expanding; and the tree rendering prints a node whose key is already on the
current path as a circular-reference marker, without touching its children. -/
theorem C6_cycle_terminates_and_marks :
    (∀ (store : ObjectStore) (rootId rootType : String) (maxDepth : Nat),
      (finalStateOf store rootId rootType maxDepth).isSome = true) ∧
    (∀ (store : ObjectStore) (maxDepth fuel : Nat) (st : TravState)
        (id type : String) (depth : Nat),
      keyOf type id ∈ st.visited →
      runTraverse store maxDepth (fuel + 1) st (.visit id type depth) = some st) ∧
    (∀ (m : NodeMap) (fuel : Nat) (n : DependencyNode) (pre : String)
        (visited : List String),
      nodeKey n ∈ visited →
      formatNodeTree m (fuel + 1) n pre visited =
        some (nodeHeader pre n ++ circularMark pre)) := by
  refine ⟨runTraverse_total, ?_, ?_⟩
  · intro store maxDepth fuel st id type depth h
    rw [runTraverse]
    rw [if_pos (Or.inl h)]
  · intro m fuel n pre visited h
    unfold formatNodeTree formatRun
    rw [if_pos h]

/-- Witness for C6 on the concrete two-object cycle `a -> b -> a`. -/
theorem C6_cycle_terminates_and_marks_witness :
    (finalStateOf storeAB "a" "visualization" 5).isSome = true ∧
    runTraverse storeAB 5 1 stV6 (.visit "a" "visualization" 1) = some stV6 ∧
    formatNodeTree [] 1 nodeW6 "" [keyOf "visualization" "a"] =
      some (nodeHeader "" nodeW6 ++ circularMark "") :=
  ⟨C6_cycle_terminates_and_marks.1 storeAB "a" "visualization" 5,
   C6_cycle_terminates_and_marks.2.1 storeAB 5 0 stV6 "a" "visualization" 1 (by decide),
   C6_cycle_terminates_and_marks.2.2 [] 0 nodeW6 "" [keyOf "visualization" "a"] (by decide)⟩

/-! ## Theorems: reachable pairs, occurring pairs, depth budgets -/

/-- Nothing is reachable from a missing object. -/
theorem reachP_nil_of_not_store (store : ObjectStore) (n : Nat) (p : String × String)
    (h : fetchObject store p.1 p.2 = none) : reachP store n p = [] := by
  cases n with
  | zero =>
    rw [reachP, h]
    rfl
  | succ n =>
    rw [reachP, h]

/-- Every reachable pair denotes an existing object. -/
theorem mem_reachP_store (store : ObjectStore) :
    ∀ (n : Nat) (p q : String × String), q ∈ reachP store n p →
      (fetchObject store q.1 q.2).isSome = true := by
  intro n
  induction n with
  | zero =>
    intro p q hq
    rw [reachP] at hq
    split at hq
    · rcases List.mem_singleton.mp hq with h
      subst h
      assumption
    · cases hq
  | succ n ih =>
    intro p q hq
    rw [reachP] at hq
    cases hfetch : fetchObject store p.1 p.2 with
    | none => rw [hfetch] at hq; cases hq
    | some obj =>
      rw [hfetch] at hq
      rcases List.mem_cons.mp hq with h1 | h2
      · subst h1
        rw [hfetch]
        rfl
      · rcases List.mem_flatMap.mp h2 with ⟨r, _, hr⟩
        exact ih _ q hr

/-- An existing object reaches itself at every budget. -/
theorem reachP_self (store : ObjectStore) (n : Nat) (p : String × String)
    (h : (fetchObject store p.1 p.2).isSome = true) : p ∈ reachP store n p := by
  cases n with
  | zero =>
    rw [reachP]
    rw [if_pos h]
    exact List.mem_singleton.mpr rfl
  | succ n =>
    cases hfetch : fetchObject store p.1 p.2 with
    | none => rw [hfetch] at h; cases h
    | some obj =>
      rw [reachP, hfetch]
      exact List.mem_cons_self _ _

/-- One more budget step keeps every reachable pair reachable. -/
theorem reachP_succ_of_mem (store : ObjectStore) :
    ∀ (n : Nat) (p q : String × String), q ∈ reachP store n p →
      q ∈ reachP store (n + 1) p := by
  intro n
  induction n with
  | zero =>
    intro p q hq
    rw [reachP] at hq
    split at hq
    · rcases List.mem_singleton.mp hq with h
      subst h
      exact reachP_self store 1 q (by assumption)
    · cases hq
  | succ n ih =>
    intro p q hq
    rw [reachP] at hq
    cases hfetch : fetchObject store p.1 p.2 with
    | none => rw [hfetch] at hq; cases hq
    | some obj =>
      rw [hfetch] at hq
      rw [reachP, hfetch]
      rcases List.mem_cons.mp hq with h1 | h2
      · subst h1
        exact List.mem_cons_self _ _
      · rcases List.mem_flatMap.mp h2 with ⟨r, hr, hqr⟩
        exact List.mem_cons_of_mem _ (List.mem_flatMap.mpr ⟨r, hr, ih _ q hqr⟩)

/-- Budget monotonicity of reachability. -/
theorem reachP_mono (store : ObjectStore) (n m : Nat) (p q : String × String)
    (hnm : n ≤ m) (hq : q ∈ reachP store n p) : q ∈ reachP store m p := by
  induction m with
  | zero =>
    have : n = 0 := Nat.le_zero.mp hnm
    subst this
    exact hq
  | succ m ih =>
    rcases Nat.lt_or_ge n (m + 1) with h1 | h2
    · exact reachP_succ_of_mem store m p q (ih (Nat.lt_succ_iff.mp h1))
    · have : n = m + 1 := Nat.le_antisymm hnm h2
      subst this
      exact hq

/-- Reachability extends along one declared reference to an existing
object. -/
theorem reachP_step (store : ObjectStore) :
    ∀ (n : Nat) (q p : String × String) (obj : SavedObj) (r : SavedObjectRef),
      p ∈ reachP store n q →
      fetchObject store p.1 p.2 = some obj →
      r ∈ obj.references →
      (fetchObject store r.type r.id).isSome = true →
      (r.type, r.id) ∈ reachP store (n + 1) q := by
  intro n
  induction n with
  | zero =>
    intro q p obj r hp hfetch hr hrstore
    rw [reachP] at hp
    split at hp
    · rcases List.mem_singleton.mp hp with h
      subst h
      rw [reachP, hfetch]
      exact List.mem_cons_of_mem _
        (List.mem_flatMap.mpr ⟨r, hr, reachP_self store 0 (r.type, r.id) hrstore⟩)
    · cases hp
  | succ n ih =>
    intro q p obj r hp hfetch hr hrstore
    rw [reachP] at hp
    cases hqf : fetchObject store q.1 q.2 with
    | none => rw [hqf] at hp; cases hp
    | some qobj =>
      rw [hqf] at hp
      rw [reachP, hqf]
      rcases List.mem_cons.mp hp with h1 | h2
      · subst h1
        have hobj : qobj = obj := by
          rw [hqf] at hfetch
          injection hfetch
        subst hobj
        exact List.mem_cons_of_mem _
          (List.mem_flatMap.mpr ⟨r, hr, reachP_self store (n + 1) (r.type, r.id) hrstore⟩)
      · rcases List.mem_flatMap.mp h2 with ⟨r0, hr0, hpr0⟩
        exact List.mem_cons_of_mem _
          (List.mem_flatMap.mpr ⟨r0, hr0, ih _ p obj r hpr0 hfetch hr hrstore⟩)

/-- The root pair occurs. -/
theorem occ_root (store : ObjectStore) (rootId rootType : String) :
    (rootType, rootId) ∈ occPairs store rootId rootType :=
  List.mem_cons_self _ _

/-- References of stored objects occur. -/
theorem occ_of_ref (store : ObjectStore) (rootId rootType : String)
    (type id : String) (obj : SavedObj) (r : SavedObjectRef)
    (hfetch : fetchObject store type id = some obj) (hr : r ∈ obj.references) :
    (r.type, r.id) ∈ occPairs store rootId rootType := by
  unfold fetchObject at hfetch
  cases hf : store.find? (fun e => decide (e.1 = (type, id))) with
  | none => rw [hf] at hfetch; exact absurd hfetch (by simp)
  | some e =>
    rw [hf] at hfetch
    have hobj : obj = e.2 := by simpa using hfetch.symm
    subst hobj
    refine List.mem_cons_of_mem _ (List.mem_flatMap.mpr ⟨e, List.mem_of_find?_eq_some hf, ?_⟩)
    exact List.mem_map.mpr ⟨r, hr, rfl⟩

/-- Pairs reachable from an occurring pair occur. -/
theorem reachP_sub_occ (store : ObjectStore) (rootId rootType : String) :
    ∀ (n : Nat) (q p : String × String),
      q ∈ occPairs store rootId rootType → p ∈ reachP store n q →
      p ∈ occPairs store rootId rootType := by
  intro n
  induction n with
  | zero =>
    intro q p hq hp
    rw [reachP] at hp
    split at hp
    · rcases List.mem_singleton.mp hp with h
      subst h
      exact hq
    · cases hp
  | succ n ih =>
    intro q p hq hp
    rw [reachP] at hp
    cases hqf : fetchObject store q.1 q.2 with
    | none => rw [hqf] at hp; cases hp
    | some qobj =>
      rw [hqf] at hp
      rcases List.mem_cons.mp hp with h1 | h2
      · subst h1
        exact hq
      · rcases List.mem_flatMap.mp h2 with ⟨r, hr, hpr⟩
        exact ih (r.type, r.id) p (occ_of_ref store rootId rootType q.1 q.2 qobj r hqf hr) hpr

/-- Stepping down the depth budget along an in-store reference. -/
theorem depthLE_step (store : ObjectStore) (m : Nat) (type id : String) (obj : SavedObj)
    (r : SavedObjectRef)
    (h : depthLE store m (type, id) = true)
    (hfetch : fetchObject store type id = some obj)
    (hr : r ∈ obj.references)
    (hrstore : inStoreP store (r.type, r.id) = true) :
    1 ≤ m ∧ depthLE store (m - 1) (r.type, r.id) = true := by
  rw [depthLE] at h
  rw [hfetch] at h
  have hrsucc : r ∈ obj.references.filter (fun r => inStoreP store (r.type, r.id)) :=
    List.mem_filter.mpr ⟨hr, hrstore⟩
  cases m with
  | zero =>
    dsimp only at h
    rw [List.isEmpty_iff] at h
    rw [h] at hrsucc
    cases hrsucc
  | succ m =>
    dsimp only at h
    rw [List.all_eq_true] at h
    exact ⟨Nat.succ_le_succ (Nat.zero_le m), h r hrsucc⟩

/-! ## Theorems: scope invariants along the traversal -/

/-- After a successful in-budget visit, the visited key is marked. -/
theorem visit_visited (store : ObjectStore) (maxDepth : Nat) (fuel : Nat) (st : TravState)
    (id type : String) (depth : Nat) (st' : TravState)
    (h : runTraverse store maxDepth fuel st (.visit id type depth) = some st')
    (hdepth : depth ≤ maxDepth) : keyOf type id ∈ st'.visited := by
  cases fuel with
  | zero => exact absurd h (by simp [runTraverse])
  | succ fuel =>
    rw [runTraverse] at h
    split at h
    · rename_i hguard
      injection h with h
      subst h
      rcases hguard with h1 | h2
      · exact h1
      · omega
    · dsimp only at h
      cases hfetch : fetchObject store type id with
      | none =>
        rw [hfetch] at h
        injection h with h
        subst h
        exact List.mem_cons_self _ _
      | some obj =>
        rw [hfetch] at h
        dsimp only at h
        exact (runTraverse_mono store maxDepth fuel _ _ _ h).1 _ (List.mem_cons_self _ _)

/-- A successful run preserves the scope invariants under the task
preconditions. -/
theorem runTraverse_Scoped (store : ObjectStore) (rootId rootType : String) (maxDepth : Nat) :
    ∀ (fuel : Nat) (st : TravState) (t : TravTask) (st' : TravState),
      runTraverse store maxDepth fuel st t = some st' →
      TaskPre store rootId rootType maxDepth t →
      ScopedInv store rootId rootType maxDepth st →
      ScopedInv store rootId rootType maxDepth st' := by
  intro fuel
  induction fuel with
  | zero =>
    intro st t st' h
    exact absurd h (by simp [runTraverse])
  | succ fuel ih =>
    intro st t st' h hpre hsc
    cases t with
    | visit id type depth =>
      rw [runTraverse] at h
      split at h
      · injection h with h
        subst h
        exact hsc
      · dsimp only at h
        obtain ⟨hocc, hbud⟩ := hpre
        cases hfetch : fetchObject store type id with
        | none =>
          rw [hfetch] at h
          injection h with h
          subst h
          obtain ⟨s1, s2⟩ := hsc
          refine ⟨?_, ?_⟩
          · intro e he
            rcases List.mem_cons.mp he with h1 | h2
            · subst h1
              exact hocc
            · exact s1 e h2
          · intro p hp
            rcases List.mem_cons.mp hp with h1 | h2
            · exact absurd (congrArg Prod.snd h1) (by simp)
            · exact s2 p h2
        | some obj =>
          rw [hfetch] at h
          dsimp only at h
          have hstore : inStoreP store (type, id) = true := by
            unfold inStoreP
            rw [hfetch]
            rfl
          obtain ⟨hd1, hd2, hd3⟩ := hbud hstore
          refine ih _ _ _ h ?_ ?_
          · intro r hr
            refine ⟨occ_of_ref store rootId rootType type id obj r hfetch hr, ?_⟩
            intro hrstore
            obtain ⟨hm, hdle⟩ := depthLE_step store (maxDepth - depth) type id obj r hd2 hfetch hr hrstore
            refine ⟨by omega, ?_, ?_⟩
            · have : maxDepth - depth - 1 = maxDepth - (depth + 1) := by omega
              rw [← this]
              exact hdle
            · exact reachP_step store depth (rootType, rootId) (type, id) obj r hd3 hfetch hr hrstore
          · obtain ⟨s1, s2⟩ := hsc
            refine ⟨?_, ?_⟩
            · intro e he
              rcases List.mem_cons.mp he with h1 | h2
              · subst h1
                exact hocc
              · exact s1 e h2
            · intro p hp
              rcases List.mem_cons.mp hp with h1 | h2
              · have hpeq : p = (type, id) := congrArg Prod.fst h1
                subst hpeq
                exact reachP_mono store depth maxDepth (rootType, rootId) (type, id) hd1 hd3
              · exact s2 p h2
    | expand pid ptype ptitle depth refs =>
      cases refs with
      | nil =>
        rw [runTraverse] at h
        injection h with h
        subst h
        exact hsc
      | cons ref rest =>
        rw [runTraverse] at h
        cases hv : runTraverse store maxDepth fuel st (.visit ref.id ref.type (depth + 1)) with
        | none => rw [hv] at h; exact absurd h (by simp)
        | some st1 =>
          rw [hv] at h
          dsimp only at h
          have hsc1 := ih _ _ _ hv (hpre ref (List.mem_cons_self _ _)) hsc
          exact ih _ _ _ h (fun r hr => hpre r (List.mem_cons_of_mem _ hr)) hsc1

/-! ## Theorems: every fetched object ends with its in-store references visited -/

/-- A successful fetch turns a visit precondition into the precondition of the
spawned reference expansion. -/
theorem TaskPre_expand_of_visit (store : ObjectStore) (rootId rootType : String)
    (maxDepth : Nat) (id type : String) (depth : Nat) (obj : SavedObj)
    (hpre : TaskPre store rootId rootType maxDepth (.visit id type depth))
    (hfetch : fetchObject store type id = some obj) :
    TaskPre store rootId rootType maxDepth (.expand id type obj.title depth obj.references) := by
  obtain ⟨hocc, hbud⟩ := hpre
  have hstore : inStoreP store (type, id) = true := by
    unfold inStoreP
    rw [hfetch]
    rfl
  obtain ⟨hd1, hd2, hd3⟩ := hbud hstore
  intro r hr
  refine ⟨occ_of_ref store rootId rootType type id obj r hfetch hr, ?_⟩
  intro hrstore
  obtain ⟨hm, hdle⟩ := depthLE_step store (maxDepth - depth) type id obj r hd2 hfetch hr hrstore
  refine ⟨by omega, ?_,
    reachP_step store depth (rootType, rootId) (type, id) obj r hd3 hfetch hr hrstore⟩
  have heq : maxDepth - depth - 1 = maxDepth - (depth + 1) := by omega
  rw [← heq]
  exact hdle

/-- A successful run closes the pending edges of its excuse stack: afterwards,
modulo the untouched outer excuses, every in-store reference of every
successfully fetched object has a visited key. -/
theorem runTraverse_Closed (store : ObjectStore) (rootId rootType : String) (maxDepth : Nat) :
    ∀ (fuel : Nat) (st : TravState) (t : TravTask) (st' : TravState),
      runTraverse store maxDepth fuel st t = some st' →
      TaskPre store rootId rootType maxDepth t →
      ∀ E : List ((String × String) × List SavedObjectRef),
        (match t with
         | .visit _ _ _ => ClosedExc store st E → ClosedExc store st' E
         | .expand pid ptype _ _ refs =>
           ClosedExc store st (((ptype, pid), refs) :: E) → ClosedExc store st' E) := by
  intro fuel
  induction fuel with
  | zero =>
    intro st t st' h
    exact absurd h (by simp [runTraverse])
  | succ fuel ih =>
    intro st t st' h hpre E
    cases t with
    | visit id type depth =>
      dsimp only
      intro hclosed
      rw [runTraverse] at h
      split at h
      · injection h with h
        subst h
        exact hclosed
      · dsimp only at h
        cases hfetch : fetchObject store type id with
        | none =>
          rw [hfetch] at h
          injection h with h
          subst h
          intro p obj hp hpf r hr hrstore
          rcases List.mem_cons.mp hp with h1 | h2
          · exact absurd (congrArg Prod.snd h1) (by simp)
          · rcases hclosed p obj h2 hpf r hr hrstore with hv | hexc
            · exact Or.inl (List.mem_cons_of_mem _ hv)
            · exact Or.inr hexc
        | some obj0 =>
          rw [hfetch] at h
          dsimp only at h
          have hnext := ih _ _ _ h
            (TaskPre_expand_of_visit store rootId rootType maxDepth id type depth obj0 hpre hfetch) E
          dsimp only at hnext
          apply hnext
          intro p obj hp hpf r hr hrstore
          rcases List.mem_cons.mp hp with h1 | h2
          · have hpeq : p = (type, id) := congrArg Prod.fst h1
            subst hpeq
            have hobj : obj = obj0 := by
              have := hpf.symm.trans hfetch
              injection this
            refine Or.inr ⟨obj0.references, List.mem_cons_self _ _, ?_⟩
            rw [← hobj]
            exact hr
          · rcases hclosed p obj h2 hpf r hr hrstore with hv | ⟨rem, hrem, hrrem⟩
            · exact Or.inl (List.mem_cons_of_mem _ hv)
            · exact Or.inr ⟨rem, List.mem_cons_of_mem _ hrem, hrrem⟩
    | expand pid ptype ptitle depth refs =>
      cases refs with
      | nil =>
        dsimp only
        intro hclosed
        rw [runTraverse] at h
        injection h with h
        subst h
        intro p obj hp hpf r hr hrstore
        rcases hclosed p obj hp hpf r hr hrstore with hv | ⟨rem, hrem, hrrem⟩
        · exact Or.inl hv
        · rcases List.mem_cons.mp hrem with h1 | h2
          · have : rem = [] := congrArg Prod.snd h1
            subst this
            cases hrrem
          · exact Or.inr ⟨rem, h2, hrrem⟩
      | cons ref rest =>
        dsimp only
        intro hclosed
        rw [runTraverse] at h
        cases hv : runTraverse store maxDepth fuel st (.visit ref.id ref.type (depth + 1)) with
        | none => rw [hv] at h; exact absurd h (by simp)
        | some st1 =>
          rw [hv] at h
          dsimp only at h
          have h1 := ih _ _ _ hv (hpre ref (List.mem_cons_self _ _))
            (((ptype, pid), ref :: rest) :: E)
          dsimp only at h1
          have hclosed1 : ClosedExc store st1 (((ptype, pid), ref :: rest) :: E) := h1 hclosed
          have hclosed2 : ClosedExc store
              (pushReferencedBy st1 (keyOf ref.type ref.id)
                { id := pid, type := ptype, name := ptitle.getD pid })
              (((ptype, pid), rest) :: E) := by
            intro p obj hp hpf r hr hrstore
            rcases hclosed1 p obj hp hpf r hr hrstore with hvv | ⟨rem, hrem, hrrem⟩
            · exact Or.inl hvv
            · rcases List.mem_cons.mp hrem with hh | ht
              · have hrem_eq : rem = ref :: rest := congrArg Prod.snd hh
                have hp_eq : p = (ptype, pid) := congrArg Prod.fst hh
                subst hrem_eq
                rcases List.mem_cons.mp hrrem with hra | hrb
                · subst hra
                  left
                  exact visit_visited store maxDepth fuel st r.id r.type (depth + 1) st1 hv
                    ((hpre r (List.mem_cons_self _ _)).2 hrstore).1
                · right
                  refine ⟨rest, ?_, hrb⟩
                  rw [hp_eq]
                  exact List.mem_cons_self _ _
              · exact Or.inr ⟨rem, List.mem_cons_of_mem _ ht, hrrem⟩
          have h2 := ih _ _ _ h (fun r hr => hpre r (List.mem_cons_of_mem _ hr)) E
          dsimp only at h2
          exact h2 hclosed2

/-! ## Theorems: assembling the final state of one build -/

/-- Precondition of the root visit, from the depth hypothesis. -/
theorem rootTaskPre (store : ObjectStore) (rootId rootType : String) (maxDepth : Nat)
    (hdepth : depthLE store maxDepth (rootType, rootId) = true) :
    TaskPre store rootId rootType maxDepth (.visit rootId rootType 0) := by
  refine ⟨occ_root store rootId rootType, ?_⟩
  intro hstore
  refine ⟨Nat.zero_le _, ?_, reachP_self store 0 (rootType, rootId) hstore⟩
  rw [Nat.sub_zero]
  exact hdepth

/-- The scope invariants hold in the final state. -/
theorem finalState_Scoped (store : ObjectStore) (rootId rootType : String) (maxDepth : Nat)
    (st : TravState) (h : finalStateOf store rootId rootType maxDepth = some st)
    (hdepth : depthLE store maxDepth (rootType, rootId) = true) :
    ScopedInv store rootId rootType maxDepth st := by
  unfold finalStateOf at h
  refine runTraverse_Scoped store rootId rootType maxDepth _ _ _ _ h
    (rootTaskPre store rootId rootType maxDepth hdepth) ?_
  exact ⟨fun e he => absurd he (by simp [initialState]),
    fun p hp => absurd hp (by simp [initialState])⟩

/-- The final state is fully closed. -/
theorem finalState_Closed (store : ObjectStore) (rootId rootType : String) (maxDepth : Nat)
    (st : TravState) (h : finalStateOf store rootId rootType maxDepth = some st)
    (hdepth : depthLE store maxDepth (rootType, rootId) = true) :
    ClosedExc store st [] := by
  unfold finalStateOf at h
  have hc := runTraverse_Closed store rootId rootType maxDepth _ _ _ _ h
    (rootTaskPre store rootId rootType maxDepth hdepth) []
  dsimp only at hc
  apply hc
  intro p obj hp
  exact absurd hp (by simp [initialState])

/-- When the root object exists, its fetch succeeds and is logged. -/
theorem root_fetched (store : ObjectStore) (rootId rootType : String) (maxDepth : Nat)
    (st : TravState) (h : finalStateOf store rootId rootType maxDepth = some st)
    (hstore : (fetchObject store rootType rootId).isSome = true) :
    ((rootType, rootId), true) ∈ st.fetchLog := by
  unfold finalStateOf at h
  revert h
  generalize traverseFuel store = fuel
  intro h
  cases fuel with
  | zero => exact absurd h (by simp [runTraverse])
  | succ fuel =>
    rw [runTraverse] at h
    rw [if_neg (by rintro (hmem | hlt); exact absurd hmem (by simp [initialState]); omega)] at h
    obtain ⟨obj, hobj⟩ := Option.isSome_iff_exists.mp hstore
    rw [hobj] at h
    dsimp only at h
    exact (runTraverse_mono store maxDepth fuel _ _ _ h).2.1 _ (List.mem_cons_self _ _)

/-- Completeness: with collision-free keys, every pair reachable from a
fetched pair has a fetched pair of the same key. -/
theorem reach_fetched (store : ObjectStore) (rootId rootType : String) (maxDepth : Nat)
    (st : TravState)
    (hst : StInv store st)
    (hsc : ScopedInv store rootId rootType maxDepth st)
    (hcl : ClosedExc store st [])
    (hinj : KeysInjOn (occPairs store rootId rootType)) :
    ∀ (n : Nat) (q p : String × String),
      (q, true) ∈ st.fetchLog → p ∈ reachP store n q →
      ∃ p', (p', true) ∈ st.fetchLog ∧ pairKey p' = pairKey p := by
  obtain ⟨i1, i2, i3, i4, i5⟩ := hst
  obtain ⟨s1, s2⟩ := hsc
  intro n
  induction n with
  | zero =>
    intro q p hq hp
    rw [reachP] at hp
    split at hp
    · rcases List.mem_singleton.mp hp with h
      exact ⟨q, hq, by rw [h]⟩
    · cases hp
  | succ n ih =>
    intro q p hq hp
    rw [reachP] at hp
    cases hqf : fetchObject store q.1 q.2 with
    | none => rw [hqf] at hp; cases hp
    | some qobj =>
      rw [hqf] at hp
      rcases List.mem_cons.mp hp with h1 | h2
      · exact ⟨q, hq, by rw [h1]⟩
      · rcases List.mem_flatMap.mp h2 with ⟨r, hr, hpr⟩
        have hrstore : (fetchObject store r.type r.id).isSome = true := by
          by_contra hns
          rw [reachP_nil_of_not_store store n (r.type, r.id)
            (Option.not_isSome_iff_eq_none.mp (by simpa using hns))] at hpr
          cases hpr
        have hvis : keyOf r.type r.id ∈ st.visited := by
          rcases hcl q qobj hq hqf r hr hrstore with hv | ⟨rem, hrem, _⟩
          · exact hv
          · cases hrem
        rcases (i2 _).mp hvis with ⟨e, he, hek⟩
        have heocc : e.1 ∈ occPairs store rootId rootType := s1 e he
        have hrocc : (r.type, r.id) ∈ occPairs store rootId rootType :=
          occ_of_ref store rootId rootType q.1 q.2 qobj r hqf hr
        have hpe : e.1 = (r.type, r.id) := hinj e.1 heocc (r.type, r.id) hrocc hek
        have hflag : e.2 = true := by
          rw [i3 e he, hpe]
          exact hrstore
        have hlogr : ((r.type, r.id), true) ∈ st.fetchLog := by
          have hee : e = ((r.type, r.id), true) := by
            obtain ⟨p1, b1⟩ := e
            simp only at hpe hflag
            rw [hpe, hflag]
          rw [← hee]
          exact he
        exact ih (r.type, r.id) p hlogr hpr

/-- The recorded keys are exactly the keys of the pairs reachable within the
depth budget. -/
theorem finalState_keys_iff (store : ObjectStore) (rootId rootType : String) (maxDepth : Nat)
    (st : TravState) (h : finalStateOf store rootId rootType maxDepth = some st)
    (hinj : KeysInjOn (occPairs store rootId rootType))
    (hdepth : depthLE store maxDepth (rootType, rootId) = true) :
    ∀ k, k ∈ st.allNodes.map Prod.fst ↔
      ∃ p ∈ reachP store maxDepth (rootType, rootId), pairKey p = k := by
  have hst := finalState_StInv store rootId rootType maxDepth st h
  have hsc := finalState_Scoped store rootId rootType maxDepth st h hdepth
  have hcl := finalState_Closed store rootId rootType maxDepth st h hdepth
  obtain ⟨i1, i2, i3, i4, i5⟩ := hst
  intro k
  constructor
  · intro hk
    have hks := (mapGet_isSome_iff_mem_keys st.allNodes k).mpr hk
    rcases (i1 k).mp hks with ⟨p, hp, hpk⟩
    exact ⟨p, hsc.2 p hp, hpk⟩
  · rintro ⟨p, hp, hpk⟩
    have hroot : (fetchObject store rootType rootId).isSome = true := by
      by_contra hns
      rw [reachP_nil_of_not_store store maxDepth (rootType, rootId)
        (Option.not_isSome_iff_eq_none.mp (by simpa using hns))] at hp
      cases hp
    have hrl := root_fetched store rootId rootType maxDepth st h hroot
    rcases reach_fetched store rootId rootType maxDepth st ⟨i1, i2, i3, i4, i5⟩ hsc hcl hinj
      maxDepth (rootType, rootId) p hrl hp with ⟨p', hp', hppk⟩
    apply (mapGet_isSome_iff_mem_keys st.allNodes k).mp
    exact (i1 k).mpr ⟨p', hp', by rw [hppk, hpk]⟩

/-- The node count equals the number of distinct reachable pairs, given
collision-free keys. -/
theorem finalState_count (store : ObjectStore) (rootId rootType : String) (maxDepth : Nat)
    (st : TravState) (h : finalStateOf store rootId rootType maxDepth = some st)
    (hinj : KeysInjOn (occPairs store rootId rootType))
    (hdepth : depthLE store maxDepth (rootType, rootId) = true) :
    st.allNodes.length = ((reachP store maxDepth (rootType, rootId)).dedup).length := by
  have hkeys := finalState_keys_iff store rootId rootType maxDepth st h hinj hdepth
  obtain ⟨i1, i2, i3, i4, i5⟩ := finalState_StInv store rootId rootType maxDepth st h
  have hlen1 : st.allNodes.length = (st.allNodes.map Prod.fst).length :=
    (List.length_map _ _).symm
  have hlen2 : (st.allNodes.map Prod.fst).length = (st.allNodes.map Prod.fst).toFinset.card :=
    (List.toFinset_card_of_nodup i5).symm
  have hRnodup : ((reachP store maxDepth (rootType, rootId)).dedup).Nodup :=
    List.nodup_dedup _
  have hlen3 : ((reachP store maxDepth (rootType, rootId)).dedup).toFinset.card =
      ((reachP store maxDepth (rootType, rootId)).dedup).length :=
    List.toFinset_card_of_nodup hRnodup
  have hset : (st.allNodes.map Prod.fst).toFinset =
      ((reachP store maxDepth (rootType, rootId)).dedup).toFinset.image pairKey := by
    ext k
    simp only [List.mem_toFinset, Finset.mem_image]
    rw [hkeys k]
    constructor
    · rintro ⟨p, hp, hpk⟩
      exact ⟨p, List.mem_dedup.mpr hp, hpk⟩
    · rintro ⟨p, hp, hpk⟩
      exact ⟨p, List.mem_dedup.mp hp, hpk⟩
  have hinjOn : Set.InjOn pairKey
      (((reachP store maxDepth (rootType, rootId)).dedup).toFinset : Set (String × String)) := by
    intro a ha b hb hab
    have haR : a ∈ reachP store maxDepth (rootType, rootId) :=
      List.mem_dedup.mp (List.mem_toFinset.mp (Finset.mem_coe.mp ha))
    have hbR : b ∈ reachP store maxDepth (rootType, rootId) :=
      List.mem_dedup.mp (List.mem_toFinset.mp (Finset.mem_coe.mp hb))
    exact hinj a
      (reachP_sub_occ store rootId rootType maxDepth (rootType, rootId) a
        (occ_root store rootId rootType) haR)
      b
      (reachP_sub_occ store rootId rootType maxDepth (rootType, rootId) b
        (occ_root store rootId rootType) hbR)
      hab
  have hcard := Finset.card_image_of_injOn hinjOn
  rw [hlen1, hlen2, hset, hcard, hlen3]

/-! ## Theorems: node count versus reachable pairs (C4) -/

/-- C4 (counterexample): the two distinct pairs `("a", "b:c")` and
`("a:b", "c")` share the composite key `a:b:c`, so on the acyclic depth-1
graph of `storeX` the traversal terminates but records one node while two
distinct `(type, id)` pairs are reachable within the depth budget. -/
theorem C4_key_collision_counterexample :
    depthLE storeX 5 ("a", "b:c") = true ∧
    (finalStateOf storeX "b:c" "a" 5).isSome = true ∧
    (buildDependencyTree storeX "b:c" "a" 5).allNodes.length = 1 ∧
    ((reachP storeX 5 ("a", "b:c")).dedup).length = 2 ∧
    (buildDependencyTree storeX "b:c" "a" 5).allNodes.length ≠
      ((reachP storeX 5 ("a", "b:c")).dedup).length := by
  exact ⟨by decide, by decide, by decide, by decide, by decide⟩

/-- C4 (amended): over an acyclic reference graph whose depth below the root
is at most `maxDepth` and whose occurring pairs have collision-free composite
keys, `buildDependencyTree` terminates and `allNodes.size` equals the number
of distinct `(type, id)` pairs reachable from the root within that depth. -/
theorem C4_reachable_count :
    ∀ (store : ObjectStore) (rootId rootType : String) (maxDepth : Nat),
      KeysInjOn (occPairs store rootId rootType) →
      depthLE store maxDepth (rootType, rootId) = true →
      (finalStateOf store rootId rootType maxDepth).isSome = true ∧
      (buildDependencyTree store rootId rootType maxDepth).allNodes.length =
        ((reachP store maxDepth (rootType, rootId)).dedup).length := by
  intro store rootId rootType maxDepth hinj hdepth
  refine ⟨runTraverse_total store rootId rootType maxDepth, ?_⟩
  unfold buildDependencyTree
  cases hfin : finalStateOf store rootId rootType maxDepth with
  | none =>
    have := runTraverse_total store rootId rootType maxDepth
    rw [hfin] at this
    cases this
  | some st =>
    dsimp only
    exact finalState_count store rootId rootType maxDepth st hfin hinj hdepth

/-- Witness for C4 (amended) on a concrete three-object chain. -/
theorem C4_reachable_count_witness :
    KeysInjOn (occPairs storeW4 "root" "dashboard") ∧
    depthLE storeW4 5 ("dashboard", "root") = true ∧
    ((finalStateOf storeW4 "root" "dashboard" 5).isSome = true ∧
      (buildDependencyTree storeW4 "root" "dashboard" 5).allNodes.length =
        ((reachP storeW4 5 ("dashboard", "root")).dedup).length) ∧
    (buildDependencyTree storeW4 "root" "dashboard" 5).allNodes.length = 3 :=
  ⟨by decide, by decide,
   C4_reachable_count storeW4 "root" "dashboard" 5 (by decide) (by decide),
   by decide⟩
